import Mathlib

set_option maxHeartbeats 1000000

/-! # Shallow embedding of the doodlebugs-and-ants predator–prey simulation

Embedding of `src/doodlebug.cpp`.  C++ organism objects are identity-bearing:
we model each object by a stable natural-number id (`oid`); the grid stores the
id of its occupant (`none` = `nullptr`) and the registry `allOrgs` stores the
organism records in insertion order, exactly as the C++ `vector<Organism*>
allOrgs` stores pointers.  Randomness (the `std::shuffle` calls) is modelled by
a tape of naturals driving an explicit Fisher–Yates-style reordering
`shuffleWith`; every theorem quantifies over all tapes, hence over every
possible shuffle outcome. -/

def INIT_ANTS : Nat := 100
def INIT_DOODLES : Nat := 5
def ANT_BREED : Nat := 3
def DOODLE_BREED : Nat := 8
def DOODLE_STARVE : Nat := 3

/-- The two species (`class Ant`, `class Doodlebug`). -/
inductive Species where
  | ant
  | doodlebug
deriving DecidableEq

/-- One organism record: the mutable fields of the C++ `Organism` object
(`x`, `y`, `breedCount`, plus `starveCount` of `Doodlebug`), together with its
identity `oid` and its dynamic type `species`. -/
structure Organism where
  oid : Nat
  species : Species
  x : Int
  y : Int
  breedCount : Nat
  starveCount : Nat
deriving DecidableEq

/-- The `World`: grid of occupant ids (`grid[x][y]`), registry `allOrgs`,
side length `size`, tick counter `age`; `nextId` is the allocator for fresh
object identities (C++ `new` never returns a live pointer twice). -/
structure World where
  size : Int
  grid : Int → Int → Option Nat
  allOrgs : List Organism
  nextId : Nat
  age : Nat

/-- `World::inBounds`. -/
def World.inBounds (w : World) (x y : Int) : Prop :=
  0 ≤ x ∧ x < w.size ∧ 0 ≤ y ∧ y < w.size

instance (w : World) (x y : Int) : Decidable (w.inBounds x y) := by
  unfold World.inBounds
  infer_instance

/-- `World::getCell`: `nullptr` outside the grid, otherwise `grid[x][y]`. -/
def World.getCell (w : World) (x y : Int) : Option Nat :=
  if w.inBounds x y then w.grid x y else none

/-- `World::setCell`: no-op outside the grid, otherwise `grid[x][y] = org`. -/
def World.setCell (w : World) (x y : Int) (v : Option Nat) : World :=
  if w.inBounds x y then
    { w with grid := fun a b => if a = x ∧ b = y then v else w.grid a b }
  else w

/-- `World::deleteCell`: remove the occupant of `(x, y)` from the grid and
erase (the first occurrence of) it from `allOrgs`, as the C++
`find`/`erase`/`delete`/`= nullptr` sequence does. -/
def World.deleteCell (w : World) (x y : Int) : World :=
  if w.inBounds x y then
    match w.getCell x y with
    | none => w
    | some i =>
        { w.setCell x y none with
          allOrgs := w.allOrgs.eraseP (fun o => o.oid == i) }
  else w

/-- `World::getNeighbors`: the four orthogonal offsets in the fixed source
order `{0,1},{0,-1},{1,0},{-1,0}`, filtered to in-bounds coordinates. -/
def World.getNeighbors (w : World) (x y : Int) : List (Int × Int) :=
  [(x, y + 1), (x, y - 1), (x + 1, y), (x - 1, y)].filter
    (fun p => decide (w.inBounds p.1 p.2))

/-- Registry lookup by object identity: dereferencing a pointer held in the
grid, or the scheduler's `find(allOrgs.begin(), allOrgs.end(), o)` check. -/
def World.findOrg (w : World) (i : Nat) : Option Organism :=
  w.allOrgs.find? (fun o => o.oid == i)

/-- Mutation of one organism object through its registry entry (the C++ code
mutates the object `this` that `allOrgs` and the grid point at). -/
def World.updateOrg (w : World) (i : Nat) (f : Organism → Organism) : World :=
  { w with allOrgs := w.allOrgs.map (fun o => if o.oid == i then f o else o) }

/-- `World::createAnt`: if the cell reads empty, allocate a fresh `Ant` with
`breedCount = 0`, place it, and append it to `allOrgs`. -/
def World.createAnt (w : World) (x y : Int) : World :=
  match w.getCell x y with
  | some _ => w
  | none =>
      let a : Organism := ⟨w.nextId, Species.ant, x, y, 0, 0⟩
      { w.setCell x y (some w.nextId) with
        allOrgs := w.allOrgs ++ [a], nextId := w.nextId + 1 }

/-- `World::createDoodlebug`: as `createAnt` but a `Doodlebug` with
`breedCount = 0` and `starveCount = 0`. -/
def World.createDoodlebug (w : World) (x y : Int) : World :=
  match w.getCell x y with
  | some _ => w
  | none =>
      let d : Organism := ⟨w.nextId, Species.doodlebug, x, y, 0, 0⟩
      { w.setCell x y (some w.nextId) with
        allOrgs := w.allOrgs ++ [d], nextId := w.nextId + 1 }

/-- A freshly constructed `World(size)`: empty grid, empty registry. -/
def emptyWorld (n : Int) : World :=
  { size := n, grid := fun _ _ => none, allOrgs := [], nextId := 0, age := 0 }

/-- One `std::shuffle` outcome: the tape entry `r` selects which remaining
element comes next (Fisher–Yates).  An exhausted tape leaves the rest in
place; every permutation of `xs` is `shuffleWith rs xs` for some tape `rs`,
and conversely the result is always a permutation of `xs`. -/
def shuffleWith {α : Type} : List Nat → List α → List α
  | _, [] => []
  | [], x :: xs => x :: xs
  | r :: rs, x :: xs =>
      (x :: xs).getD (r % (x :: xs).length) x ::
        shuffleWith rs ((x :: xs).eraseIdx (r % (x :: xs).length))

/-- The C++ move `setCell(nx,ny,this); setCell(x,y,nullptr); setPos(nx,ny)`
performed by organism `i` from `(ox, oy)` to `(nx, ny)`. -/
def World.moveOrg (w : World) (i : Nat) (ox oy nx ny : Int) : World :=
  ((w.setCell nx ny (some i)).setCell ox oy none).updateOrg i
    (fun q => { q with x := nx, y := ny })

/-- `dynamic_cast<Ant*>(w.getCell(p))`: does cell `p` hold a live `Ant`? -/
def isAntAt (w : World) (p : Int × Int) : Bool :=
  match w.getCell p.1 p.2 with
  | none => false
  | some j =>
      match w.findOrg j with
      | none => false
      | some q =>
          match q.species with
          | Species.ant => true
          | Species.doodlebug => false

/-- The shared breeding phase (step 2 of `Ant::update`, step 4 of
`Doodlebug::update`): `incBreed()`; if the incremented counter reaches the
threshold, re-shuffle the *same* `neighbors` vector computed at the start of
the update, place one offspring in the first empty cell found (if any), and
`resetBreed()` regardless of placement success. -/
def breedPhase (w : World) (i : Nat) (ns : List (Int × Int)) (thr : Nat)
    (create : World → Int → Int → World) (t : List Nat) : World × List Nat :=
  let w1 := w.updateOrg i (fun q => { q with breedCount := q.breedCount + 1 })
  let bc := match w1.findOrg i with
    | some q => q.breedCount
    | none => 0
  if thr ≤ bc then
    let sh := shuffleWith (t.take ns.length) ns
    let w2 := match sh.find? (fun p => (w1.getCell p.1 p.2).isNone) with
      | some p => create w1 p.1 p.2
      | none => w1
    (w2.updateOrg i (fun q => { q with breedCount := 0 }), t.drop ns.length)
  else (w1, t)

/-- `Ant::update`: compute `neighbors` once, shuffle, move into the first
empty neighbor (if any), then run the breeding phase on the same
(pre-move) `neighbors` vector. -/
def antUpdate (w : World) (i : Nat) (t : List Nat) : World × List Nat :=
  match w.findOrg i with
  | none => (w, t)
  | some o =>
      let ns := w.getNeighbors o.x o.y
      let sh1 := shuffleWith (t.take ns.length) ns
      let t1 := t.drop ns.length
      let w1 := match sh1.find? (fun p => (w.getCell p.1 p.2).isNone) with
        | some p => w.moveOrg i o.x o.y p.1 p.2
        | none => w
      breedPhase w1 i ns ANT_BREED World.createAnt t1

/-- `Doodlebug::update`: starvation check first (remove self and stop);
otherwise compute `neighbors` once, shuffle and scan for an adjacent `Ant`
(eat: `deleteCell` the prey, move into its cell, `starveCount = 0`); if no
prey, re-shuffle and move into the first empty neighbor, then
`starveCount++`; finally the breeding phase on the same `neighbors`. -/
def doodleUpdate (w : World) (i : Nat) (t : List Nat) : World × List Nat :=
  match w.findOrg i with
  | none => (w, t)
  | some o =>
      if DOODLE_STARVE ≤ o.starveCount then (w.deleteCell o.x o.y, t)
      else
        let ns := w.getNeighbors o.x o.y
        let sh1 := shuffleWith (t.take ns.length) ns
        let t1 := t.drop ns.length
        match sh1.find? (fun p => isAntAt w p) with
        | some p =>
            let w1 := (w.deleteCell p.1 p.2).moveOrg i o.x o.y p.1 p.2
            let w2 := w1.updateOrg i (fun q => { q with starveCount := 0 })
            breedPhase w2 i ns DOODLE_BREED World.createDoodlebug t1
        | none =>
            let sh2 := shuffleWith (t1.take ns.length) ns
            let t2 := t1.drop ns.length
            let w1 := match sh2.find? (fun p => (w.getCell p.1 p.2).isNone) with
              | some p => w.moveOrg i o.x o.y p.1 p.2
              | none => w
            let w2 := w1.updateOrg i
              (fun q => { q with starveCount := q.starveCount + 1 })
            breedPhase w2 i ns DOODLE_BREED World.createDoodlebug t2

/-- Virtual dispatch `o->update(*this)`. -/
def orgUpdate (w : World) (i : Nat) (t : List Nat) : World × List Nat :=
  match w.findOrg i with
  | none => (w, t)
  | some o =>
      match o.species with
      | Species.ant => antUpdate w i t
      | Species.doodlebug => doodleUpdate w i t

/-- The scheduler loop of `World::update` over the shuffled snapshot: skip an
entry absent from the live registry, otherwise invoke its update.  The third
component is instrumentation only: the ids on which `o->update` was actually
invoked, in order. -/
def consTrace (i : Nat) (r : World × List Nat × List Nat) :
    World × List Nat × List Nat :=
  (r.1, r.2.1, i :: r.2.2)

def runSnapshot (w : World) (snap : List Nat) (t : List Nat) :
    World × List Nat × List Nat :=
  match snap with
  | [] => (w, t, [])
  | i :: rest =>
      if (w.findOrg i).isSome then
        consTrace i
          (runSnapshot (orgUpdate w i t).1 rest (orgUpdate w i t).2)
      else runSnapshot w rest t

/-- `World::update` (one tick): bump `age`, snapshot `allOrgs`, shuffle the
snapshot, run the scheduler loop.  Returns the world, the unused tape, and
the instrumented list of invoked ids. -/
def World.update (w : World) (t : List Nat) : World × List Nat × List Nat :=
  runSnapshot { w with age := w.age + 1 }
    (shuffleWith (t.take (w.allOrgs.map (fun o => o.oid)).length)
      (w.allOrgs.map (fun o => o.oid)))
    (t.drop (w.allOrgs.map (fun o => o.oid)).length)

/-- The ids whose `update` ran during the tick (instrumentation accessor). -/
def World.updateTrace (w : World) (t : List Nat) : List Nat :=
  (w.update t).2.2


/-- The global state invariant: registered object identities are unique and
below the allocator's next id; every registered organism sits in bounds and
its grid cell holds exactly it; every occupied grid cell is the position of a
registered organism.  This is the invariant the spec's §3 states and that
`World::update` preserves. -/
structure WF (w : World) : Prop where
  nodup : (w.allOrgs.map (fun o => o.oid)).Nodup
  idLt : ∀ o ∈ w.allOrgs, o.oid < w.nextId
  posIn : ∀ o ∈ w.allOrgs, w.inBounds o.x o.y
  posCell : ∀ o ∈ w.allOrgs, w.getCell o.x o.y = some o.oid
  cellOrg : ∀ x y i, w.getCell x y = some i →
    ∃ o, o ∈ w.allOrgs ∧ o.oid = i ∧ o.x = x ∧ o.y = y

/-- Grid/registry consistency as claim C2 states it: at most one organism per
cell (two registered organisms in the same cell are equal), every registered
organism is stored at its recorded position, and every occupied cell's
occupant is registered. -/
def World.consistent (w : World) : Prop :=
  (∀ o₁ ∈ w.allOrgs, ∀ o₂ ∈ w.allOrgs, o₁.x = o₂.x → o₁.y = o₂.y → o₁ = o₂) ∧
  (∀ o ∈ w.allOrgs, w.getCell o.x o.y = some o.oid) ∧
  (∀ x y i, w.getCell x y = some i →
    ∃ o, o ∈ w.allOrgs ∧ o.oid = i ∧ o.x = x ∧ o.y = y)

/-- Identity `j` is absent from the live registry and was already allocated
(`j < nextId`), so it can never re-enter the registry. -/
def World.deadAt (w : World) (j : Nat) : Prop :=
  w.findOrg j = none ∧ j < w.nextId


/-- A concrete world used as a test vector: a doodlebug (id 0) at (0,0) and
an ant (id 1) at (0,1) on a 2×2 grid. -/
def exampleWorld : World :=
  ((emptyWorld 2).createDoodlebug 0 0).createAnt 0 1

/-- A doodlebug (id 0) at (0,0) on a 2×2 grid whose `starveCount` has reached
the starvation threshold. -/
def starvingWorld : World :=
  ((emptyWorld 2).createDoodlebug 0 0).updateOrg 0
    (fun q => { q with starveCount := 3 })

/-- A single ant (id 0) at the corner (0,0) of a 3×3 grid with
`breedCount = 2`, about to move and then breed. -/
def cexWorld : World :=
  { size := 3, grid := fun a b => if a = 0 ∧ b = 0 then some 0 else none,
    allOrgs := [⟨0, Species.ant, 0, 0, 2, 0⟩], nextId := 1, age := 0 }

/-! ## Basic lemmas about the world operations -/

lemma World.setCell_size (w : World) (x y : Int) (v : Option Nat) :
    (w.setCell x y v).size = w.size := by
  unfold World.setCell; split <;> rfl

lemma World.setCell_allOrgs (w : World) (x y : Int) (v : Option Nat) :
    (w.setCell x y v).allOrgs = w.allOrgs := by
  unfold World.setCell; split <;> rfl

lemma World.setCell_nextId (w : World) (x y : Int) (v : Option Nat) :
    (w.setCell x y v).nextId = w.nextId := by
  unfold World.setCell; split <;> rfl

lemma World.updateOrg_size (w : World) (i : Nat) (f : Organism → Organism) :
    (w.updateOrg i f).size = w.size := rfl

lemma World.updateOrg_grid (w : World) (i : Nat) (f : Organism → Organism) :
    (w.updateOrg i f).grid = w.grid := rfl

lemma World.updateOrg_nextId (w : World) (i : Nat) (f : Organism → Organism) :
    (w.updateOrg i f).nextId = w.nextId := rfl

lemma World.inBounds_size_eq {w w' : World} (h : w'.size = w.size) (x y : Int) :
    w'.inBounds x y ↔ w.inBounds x y := by
  unfold World.inBounds; rw [h]

lemma World.setCell_inBounds (w : World) (x y a b : Int) (v : Option Nat) :
    (w.setCell x y v).inBounds a b ↔ w.inBounds a b :=
  World.inBounds_size_eq (World.setCell_size w x y v) a b

lemma World.getCell_of_not_inBounds (w : World) {x y : Int}
    (h : ¬ w.inBounds x y) : w.getCell x y = none := by
  unfold World.getCell; simp [h]

lemma World.setCell_grid (w : World) (x y a b : Int) (v : Option Nat) :
    (w.setCell x y v).grid a b =
      if a = x ∧ b = y ∧ w.inBounds x y then v else w.grid a b := by
  unfold World.setCell
  by_cases hb : w.inBounds x y
  · rw [if_pos hb]
    by_cases hab : a = x ∧ b = y
    · simp [hab, hb]
    · simp only []
      rw [if_neg hab, if_neg (by tauto)]
  · rw [if_neg hb, if_neg (by tauto)]

lemma World.getCell_eq (w : World) (a b : Int) :
    w.getCell a b = if w.inBounds a b then w.grid a b else none := rfl

lemma World.getCell_setCell (w : World) (x y a b : Int) (v : Option Nat) :
    (w.setCell x y v).getCell a b =
      if a = x ∧ b = y ∧ w.inBounds x y then v else w.getCell a b := by
  rw [World.getCell_eq, World.getCell_eq]
  rw [World.setCell_grid]
  rw [if_congr (World.setCell_inBounds w x y a b v) rfl rfl]
  by_cases h1 : a = x ∧ b = y ∧ w.inBounds x y
  · obtain ⟨hx, hy, hin⟩ := h1
    subst hx; subst hy
    simp [hin]
  · by_cases h2 : w.inBounds a b <;> simp [h1, h2]

lemma World.getCell_setCell_self (w : World) (x y : Int) (v : Option Nat)
    (h : w.inBounds x y) : (w.setCell x y v).getCell x y = v := by
  rw [World.getCell_setCell]; simp [h]

lemma World.getCell_setCell_other (w : World) (x y a b : Int) (v : Option Nat)
    (h : ¬ (a = x ∧ b = y)) : (w.setCell x y v).getCell a b = w.getCell a b := by
  rw [World.getCell_setCell]; rw [if_neg (by tauto)]

lemma World.getCell_updateOrg (w : World) (i : Nat) (f : Organism → Organism)
    (a b : Int) : (w.updateOrg i f).getCell a b = w.getCell a b := rfl

lemma World.updateOrg_allOrgs (w : World) (i : Nat) (f : Organism → Organism) :
    (w.updateOrg i f).allOrgs =
      w.allOrgs.map (fun o => if o.oid == i then f o else o) := rfl

lemma World.deleteCell_size (w : World) (x y : Int) :
    (w.deleteCell x y).size = w.size := by
  unfold World.deleteCell
  split
  · split
    · rfl
    · simp [World.setCell_size]
  · rfl

lemma World.deleteCell_nextId (w : World) (x y : Int) :
    (w.deleteCell x y).nextId = w.nextId := by
  unfold World.deleteCell
  split
  · split
    · rfl
    · simp [World.setCell_nextId]
  · rfl

lemma World.deleteCell_allOrgs (w : World) (x y : Int) :
    (w.deleteCell x y).allOrgs =
      match w.getCell x y with
      | some i => w.allOrgs.eraseP (fun o => o.oid == i)
      | none => w.allOrgs := by
  unfold World.deleteCell
  by_cases hb : w.inBounds x y
  · rw [if_pos hb]
    rcases hg : w.getCell x y with _ | i <;> simp
  · rw [if_neg hb, World.getCell_of_not_inBounds w hb]

lemma World.getCell_deleteCell (w : World) (x y a b : Int) :
    (w.deleteCell x y).getCell a b =
      if a = x ∧ b = y then none else w.getCell a b := by
  unfold World.deleteCell
  by_cases hb : w.inBounds x y
  · rw [if_pos hb]
    rcases hg : w.getCell x y with _ | i
    · by_cases hab : a = x ∧ b = y
      · obtain ⟨h1, h2⟩ := hab; subst h1; subst h2
        simp [hg]
      · simp [hab]
    · have heq : ({ w.setCell x y none with
          allOrgs := w.allOrgs.eraseP (fun o => o.oid == i) }).getCell a b
          = (w.setCell x y none).getCell a b := rfl
      rw [heq, World.getCell_setCell]
      by_cases hab : a = x ∧ b = y
      · obtain ⟨h1, h2⟩ := hab; subst h1; subst h2
        simp [hb]
      · rw [if_neg (by tauto), if_neg hab]
  · rw [if_neg hb]
    by_cases hab : a = x ∧ b = y
    · obtain ⟨h1, h2⟩ := hab; subst h1; subst h2
      simp [World.getCell_of_not_inBounds w hb]
    · simp [hab]

/-! ## Registry (`allOrgs`) lemmas -/

lemma oid_inj_of_nodup {l : List Organism}
    (h : (l.map (fun o => o.oid)).Nodup) :
    ∀ o₁ ∈ l, ∀ o₂ ∈ l, o₁.oid = o₂.oid → o₁ = o₂ := by
  induction l with
  | nil => simp
  | cons a l ih =>
      simp only [List.map_cons, List.nodup_cons] at h
      intro o₁ h₁ o₂ h₂ hoid
      rcases List.mem_cons.mp h₁ with h₁ | h₁ <;>
        rcases List.mem_cons.mp h₂ with h₂ | h₂
      · rw [h₁, h₂]
      · exfalso
        apply h.1
        rw [← h₁, hoid]
        exact List.mem_map_of_mem _ h₂
      · exfalso
        apply h.1
        rw [← h₂, ← hoid]
        exact List.mem_map_of_mem _ h₁
      · exact ih h.2 o₁ h₁ o₂ h₂ hoid

lemma World.findOrg_setCell (w : World) (x y : Int) (v : Option Nat) (j : Nat) :
    (w.setCell x y v).findOrg j = w.findOrg j := by
  unfold World.findOrg
  rw [World.setCell_allOrgs]

lemma find?_oid_map_updateIf (l : List Organism) (i j : Nat)
    (f : Organism → Organism) (hf : ∀ q, (f q).oid = q.oid) :
    (l.map (fun o => if o.oid == i then f o else o)).find?
        (fun o => o.oid == j) =
      if j = i then (l.find? (fun o => o.oid == j)).map f
      else l.find? (fun o => o.oid == j) := by
  induction l with
  | nil => simp
  | cons a l ih =>
      simp only [List.map_cons]
      have hga : (if (a.oid == i) = true then f a else a).oid = a.oid := by
        by_cases hai : a.oid = i <;> simp [hai, hf]
      by_cases haj : a.oid = j
      · rw [@List.find?_cons_of_pos Organism (fun o => o.oid == j) _ _
            (by
              show ((if (a.oid == i) = true then f a else a).oid == j) = true
              rw [hga]; simp [haj]),
          @List.find?_cons_of_pos Organism (fun o => o.oid == j) _ _
            (by simp [haj])]
        by_cases hji : j = i
        · rw [if_pos hji]
          simp [haj, hji]
        · rw [if_neg hji]
          have hfa : (if (a.oid == i) = true then f a else a) = a := by
            simp [haj, hji]
          rw [hfa]
      · rw [@List.find?_cons_of_neg Organism (fun o => o.oid == j) _ _
            (by
              show ¬ ((if (a.oid == i) = true then f a else a).oid == j) = true
              rw [hga]; simp [haj]),
          @List.find?_cons_of_neg Organism (fun o => o.oid == j) _ _
            (by simp [haj])]
        exact ih

lemma World.findOrg_updateOrg (w : World) (i j : Nat)
    (f : Organism → Organism) (hf : ∀ q, (f q).oid = q.oid) :
    (w.updateOrg i f).findOrg j =
      if j = i then (w.findOrg j).map f else w.findOrg j := by
  unfold World.findOrg World.updateOrg
  exact find?_oid_map_updateIf w.allOrgs i j f hf

lemma find?_oid_eraseP_ne (l : List Organism) (i j : Nat) (h : ¬ i = j) :
    (l.eraseP (fun o => o.oid == i)).find? (fun o => o.oid == j) =
      l.find? (fun o => o.oid == j) := by
  induction l with
  | nil => simp
  | cons a l ih =>
      by_cases hai : a.oid = i
      · rw [List.eraseP_cons_of_pos (by simp [hai])]
        rw [List.find?_cons_of_neg _ (by simp [hai, h])]
      · rw [List.eraseP_cons_of_neg (by simp [hai])]
        by_cases haj : a.oid = j
        · rw [List.find?_cons_of_pos _ (by simp [haj]),
            List.find?_cons_of_pos _ (by simp [haj])]
        · rw [List.find?_cons_of_neg _ (by simp [haj]),
            List.find?_cons_of_neg _ (by simp [haj])]
          exact ih

lemma find?_oid_eraseP_self (l : List Organism) (i : Nat)
    (hnd : (l.map (fun o => o.oid)).Nodup) :
    (l.eraseP (fun o => o.oid == i)).find? (fun o => o.oid == i) = none := by
  induction l with
  | nil => simp
  | cons a l ih =>
      simp only [List.map_cons, List.nodup_cons] at hnd
      by_cases hai : a.oid = i
      · rw [List.eraseP_cons_of_pos (by simp [hai])]
        apply List.find?_eq_none.mpr
        intro o ho
        simp only [beq_iff_eq]
        intro hoi
        apply hnd.1
        rw [hai, ← hoi]
        exact List.mem_map_of_mem _ ho
      · rw [List.eraseP_cons_of_neg (by simp [hai])]
        rw [List.find?_cons_of_neg _ (by simp [hai])]
        exact ih hnd.2

lemma World.findOrg_deleteCell (w : World) (x y : Int) (j : Nat)
    (hnd : (w.allOrgs.map (fun o => o.oid)).Nodup) :
    (w.deleteCell x y).findOrg j =
      if w.getCell x y = some j then none else w.findOrg j := by
  unfold World.findOrg
  rw [World.deleteCell_allOrgs]
  rcases hg : w.getCell x y with _ | i
  · simp
  · by_cases hij : i = j
    · subst hij
      rw [if_pos rfl]
      exact find?_oid_eraseP_self w.allOrgs i hnd
    · rw [if_neg (by simp [hij])]
      exact find?_oid_eraseP_ne w.allOrgs i j hij

lemma World.findOrg_mem {w : World} {i : Nat} {o : Organism}
    (h : w.findOrg i = some o) : o ∈ w.allOrgs ∧ o.oid = i := by
  refine ⟨List.mem_of_find?_eq_some h, ?_⟩
  have := List.find?_some h
  simpa using this

lemma World.mem_findOrg {w : World} {o : Organism}
    (hnd : (w.allOrgs.map (fun q => q.oid)).Nodup)
    (h : o ∈ w.allOrgs) : w.findOrg o.oid = some o := by
  have hsome : (w.allOrgs.find? (fun q => q.oid == o.oid)).isSome = true := by
    rw [List.find?_isSome]
    exact ⟨o, h, by simp⟩
  rcases hq : w.allOrgs.find? (fun q => q.oid == o.oid) with _ | q
  · rw [hq] at hsome
    simp at hsome
  · have hmem := List.mem_of_find?_eq_some hq
    have hqo : q.oid = o.oid := by simpa using List.find?_some hq
    unfold World.findOrg
    rw [hq]
    rw [oid_inj_of_nodup hnd q hmem o h hqo]

/-! ## Shuffle lemmas -/

lemma getD_cons_eraseIdx_perm {α : Type} :
    ∀ (l : List α) (i : Nat) (d : α), i < l.length →
      List.Perm (l.getD i d :: l.eraseIdx i) l
  | [], i, d, h => by simp at h
  | a :: l, 0, d, _ => by
      rw [List.getD_cons_zero, List.eraseIdx_cons_zero]
  | a :: l, i + 1, d, h => by
      rw [List.getD_cons_succ, List.eraseIdx_cons_succ]
      have hi : i < l.length := by
        simpa using Nat.lt_of_succ_lt_succ h
      exact (List.Perm.swap a (l.getD i d) (l.eraseIdx i)).trans
        (List.Perm.cons a (getD_cons_eraseIdx_perm l i d hi))

lemma shuffleWith_perm {α : Type} :
    ∀ (rs : List Nat) (xs : List α), List.Perm (shuffleWith rs xs) xs
  | rs, [] => by
      cases rs <;> exact List.Perm.refl _
  | [], x :: xs => List.Perm.refl _
  | r :: rs, x :: xs => by
      show List.Perm ((x :: xs).getD (r % (x :: xs).length) x ::
        shuffleWith rs ((x :: xs).eraseIdx (r % (x :: xs).length))) (x :: xs)
      have hlt : r % (x :: xs).length < (x :: xs).length :=
        Nat.mod_lt _ (by simp)
      exact (List.Perm.cons _
          (shuffleWith_perm rs ((x :: xs).eraseIdx (r % (x :: xs).length)))).trans
        (getD_cons_eraseIdx_perm (x :: xs) (r % (x :: xs).length) x hlt)

lemma mem_shuffleWith {α : Type} {a : α} {rs : List Nat} {xs : List α}
    (h : a ∈ shuffleWith rs xs) : a ∈ xs :=
  (shuffleWith_perm rs xs).mem_iff.mp h

/-! ## Create / neighbor lemmas -/

lemma World.createAnt_of_occupied {w : World} {x y : Int} {i : Nat}
    (h : w.getCell x y = some i) : w.createAnt x y = w := by
  unfold World.createAnt
  rw [h]

lemma World.createDoodlebug_of_occupied {w : World} {x y : Int} {i : Nat}
    (h : w.getCell x y = some i) : w.createDoodlebug x y = w := by
  unfold World.createDoodlebug
  rw [h]

lemma World.createAnt_of_empty {w : World} {x y : Int}
    (h : w.getCell x y = none) :
    w.createAnt x y =
      { w.setCell x y (some w.nextId) with
        allOrgs := w.allOrgs ++ [⟨w.nextId, Species.ant, x, y, 0, 0⟩],
        nextId := w.nextId + 1 } := by
  unfold World.createAnt
  rw [h]

lemma World.createDoodlebug_of_empty {w : World} {x y : Int}
    (h : w.getCell x y = none) :
    w.createDoodlebug x y =
      { w.setCell x y (some w.nextId) with
        allOrgs := w.allOrgs ++ [⟨w.nextId, Species.doodlebug, x, y, 0, 0⟩],
        nextId := w.nextId + 1 } := by
  unfold World.createDoodlebug
  rw [h]

lemma World.mem_getNeighbors_inBounds {w : World} {x y : Int} {p : Int × Int}
    (h : p ∈ w.getNeighbors x y) : w.inBounds p.1 p.2 := by
  unfold World.getNeighbors at h
  have := (List.mem_filter.mp h).2
  exact of_decide_eq_true this

lemma World.mem_getNeighbors_ne {w : World} {x y : Int} {p : Int × Int}
    (h : p ∈ w.getNeighbors x y) : ¬ (p.1 = x ∧ p.2 = y) := by
  unfold World.getNeighbors at h
  have hm := (List.mem_filter.mp h).1
  simp only [List.mem_cons, List.not_mem_nil, or_false] at hm
  intro hc
  rcases hm with hm | hm | hm | hm
  · subst hm
    have h2 : y + 1 = y := hc.2
    omega
  · subst hm
    have h2 : y - 1 = y := hc.2
    omega
  · subst hm
    have h2 : x + 1 = x := hc.1
    omega
  · subst hm
    have h2 : x - 1 = x := hc.1
    omega

/-! ## The well-formedness invariant -/

lemma WF.consistent {w : World} (h : WF w) : w.consistent := by
  refine ⟨?_, h.posCell, h.cellOrg⟩
  intro o₁ h₁ o₂ h₂ hx hy
  have c₁ := h.posCell o₁ h₁
  have c₂ := h.posCell o₂ h₂
  rw [hx, hy] at c₁
  rw [c₂] at c₁
  exact oid_inj_of_nodup h.nodup o₁ h₁ o₂ h₂ (by simpa using c₁.symm)

lemma World.deleteCell_of_empty {w : World} {x y : Int}
    (h : w.getCell x y = none) : w.deleteCell x y = w := by
  unfold World.deleteCell
  split
  · rw [h]
  · rfl

lemma WF.deleteCell {w : World} (hw : WF w) (x y : Int) :
    WF (w.deleteCell x y) := by
  rcases hg : w.getCell x y with _ | i
  · rw [World.deleteCell_of_empty hg]
    exact hw
  · have hall : (w.deleteCell x y).allOrgs =
        w.allOrgs.eraseP (fun o => o.oid == i) := by
      rw [World.deleteCell_allOrgs, hg]
    have hsub : List.Sublist ((w.deleteCell x y).allOrgs) w.allOrgs := by
      rw [hall]
      exact List.eraseP_sublist w.allOrgs
    have hmem : ∀ o ∈ (w.deleteCell x y).allOrgs, o ∈ w.allOrgs :=
      fun o ho => hsub.mem ho
    have hoid_ne : ∀ o ∈ (w.deleteCell x y).allOrgs, o.oid ≠ i := by
      intro o ho hoi
      have hnone := find?_oid_eraseP_self w.allOrgs i hw.nodup
      rw [hall] at ho
      have := List.find?_eq_none.mp hnone o ho
      simp [hoi] at this
    refine ⟨?_, ?_, ?_, ?_, ?_⟩
    · exact List.Nodup.sublist (hsub.map _) hw.nodup
    · intro o ho
      rw [World.deleteCell_nextId]
      exact hw.idLt o (hmem o ho)
    · intro o ho
      rw [World.inBounds_size_eq (World.deleteCell_size w x y)]
      exact hw.posIn o (hmem o ho)
    · intro o ho
      rw [World.getCell_deleteCell]
      rw [if_neg ?_]
      · exact hw.posCell o (hmem o ho)
      · intro hc
        have := hw.posCell o (hmem o ho)
        rw [hc.1, hc.2, hg] at this
        exact hoid_ne o ho (by simpa using this.symm)
    · intro a b k hk
      rw [World.getCell_deleteCell] at hk
      by_cases hab : a = x ∧ b = y
      · rw [if_pos hab] at hk
        exact absurd hk (by simp)
      · rw [if_neg hab] at hk
        obtain ⟨o, ho, hoid, hox, hoy⟩ := hw.cellOrg a b k hk
        refine ⟨o, ?_, hoid, hox, hoy⟩
        rw [hall]
        have hone : o.oid ≠ i := by
          intro hc
          obtain ⟨o₀, ho₀, h₀oid, h₀x, h₀y⟩ := hw.cellOrg x y i hg
          have : o = o₀ :=
            oid_inj_of_nodup hw.nodup o ho o₀ ho₀ (by rw [hc, h₀oid])
          apply hab
          rw [← hox, ← hoy, this, h₀x, h₀y]
          exact ⟨rfl, rfl⟩
        -- o survives the erase
        clear hk
        revert hone ho
        have : ∀ l : List Organism, o ∈ l → o.oid ≠ i →
            o ∈ l.eraseP (fun q => q.oid == i) := by
          intro l
          induction l with
          | nil => intro h; simp at h
          | cons c l ih =>
              intro hc hne
              by_cases hci : c.oid = i
              · rw [List.eraseP_cons_of_pos (by simp [hci])]
                rcases List.mem_cons.mp hc with h | h
                · exact absurd (h ▸ hci) hne
                · exact h
              · rw [List.eraseP_cons_of_neg (by simp [hci])]
                rcases List.mem_cons.mp hc with h | h
                · rw [h]; exact List.mem_cons_self c _
                · exact List.mem_cons_of_mem c (ih h hne)
        intro ho hone
        exact this w.allOrgs ho hone

lemma map_oid_updateIf (l : List Organism) (i : Nat) (f : Organism → Organism)
    (hf : ∀ q, (f q).oid = q.oid) :
    ((l.map (fun o => if o.oid == i then f o else o)).map (fun o => o.oid)) =
      l.map (fun o => o.oid) := by
  rw [List.map_map]
  apply List.map_congr_left
  intro o _
  by_cases hoi : o.oid = i <;> simp [hoi, hf]

lemma WF.updateOrg {w : World} (hw : WF w) (i : Nat) (f : Organism → Organism)
    (hf : ∀ q, (f q).oid = q.oid ∧ (f q).x = q.x ∧ (f q).y = q.y) :
    WF (w.updateOrg i f) := by
  have hfo : ∀ q, (f q).oid = q.oid := fun q => (hf q).1
  have hall : (w.updateOrg i f).allOrgs =
      w.allOrgs.map (fun o => if o.oid == i then f o else o) := rfl
  have hgmem : ∀ o ∈ (w.updateOrg i f).allOrgs, ∃ q ∈ w.allOrgs,
      o.oid = q.oid ∧ o.x = q.x ∧ o.y = q.y := by
    intro o ho
    rw [hall] at ho
    obtain ⟨q, hq, hqo⟩ := List.mem_map.mp ho
    refine ⟨q, hq, ?_⟩
    by_cases hqi : q.oid = i
    · rw [← hqo]
      simp [hqi, hf q]
    · rw [← hqo]
      simp [hqi]
  refine ⟨?_, ?_, ?_, ?_, ?_⟩
  · rw [hall, map_oid_updateIf w.allOrgs i f hfo]
    exact hw.nodup
  · intro o ho
    obtain ⟨q, hq, h1, _, _⟩ := hgmem o ho
    rw [World.updateOrg_nextId, h1]
    exact hw.idLt q hq
  · intro o ho
    obtain ⟨q, hq, _, h2, h3⟩ := hgmem o ho
    rw [World.inBounds_size_eq (World.updateOrg_size w i f), h2, h3]
    exact hw.posIn q hq
  · intro o ho
    obtain ⟨q, hq, h1, h2, h3⟩ := hgmem o ho
    rw [World.getCell_updateOrg, h1, h2, h3]
    exact hw.posCell q hq
  · intro a b k hk
    rw [World.getCell_updateOrg] at hk
    obtain ⟨q, hq, hoid, hx, hy⟩ := hw.cellOrg a b k hk
    have hmm := List.mem_map_of_mem
      (fun o => if o.oid == i then f o else o) hq
    by_cases hqi : q.oid = i
    · have hred : (if q.oid == i then f q else q) = f q := by simp [hqi]
      simp only [hred] at hmm
      refine ⟨f q, ?_, ?_, ?_, ?_⟩
      · rw [hall]; exact hmm
      · rw [hfo q, hoid]
      · rw [(hf q).2.1, hx]
      · rw [(hf q).2.2, hy]
    · have hred : (if q.oid == i then f q else q) = q := by simp [hqi]
      simp only [hred] at hmm
      refine ⟨q, ?_, hoid, hx, hy⟩
      rw [hall]; exact hmm

lemma World.moveOrg_allOrgs (w : World) (i : Nat) (ox oy nx ny : Int) :
    (w.moveOrg i ox oy nx ny).allOrgs =
      w.allOrgs.map (fun o =>
        if o.oid == i then { o with x := nx, y := ny } else o) := by
  unfold World.moveOrg
  rw [World.updateOrg_allOrgs, World.setCell_allOrgs, World.setCell_allOrgs]

lemma World.moveOrg_size (w : World) (i : Nat) (ox oy nx ny : Int) :
    (w.moveOrg i ox oy nx ny).size = w.size := by
  unfold World.moveOrg
  rw [World.updateOrg_size, World.setCell_size, World.setCell_size]

lemma World.moveOrg_nextId (w : World) (i : Nat) (ox oy nx ny : Int) :
    (w.moveOrg i ox oy nx ny).nextId = w.nextId := by
  unfold World.moveOrg
  rw [World.updateOrg_nextId, World.setCell_nextId, World.setCell_nextId]

lemma World.getCell_moveOrg (w : World) (i : Nat) (ox oy nx ny a b : Int)
    (hin : w.inBounds ox oy) :
    (w.moveOrg i ox oy nx ny).getCell a b =
      if a = ox ∧ b = oy then none
      else if a = nx ∧ b = ny ∧ w.inBounds nx ny then some i
      else w.getCell a b := by
  unfold World.moveOrg
  rw [World.getCell_updateOrg, World.getCell_setCell, World.getCell_setCell]
  rw [if_congr (and_congr_right (fun _ => and_congr_right (fun _ =>
    World.setCell_inBounds w nx ny ox oy (some i)))) rfl rfl]
  by_cases h1 : a = ox ∧ b = oy
  · rw [if_pos h1, if_pos ⟨h1.1, h1.2, hin⟩]
  · rw [if_neg h1, if_neg (by tauto)]

lemma World.findOrg_moveOrg (w : World) (i j : Nat) (ox oy nx ny : Int) :
    (w.moveOrg i ox oy nx ny).findOrg j =
      if j = i then (w.findOrg j).map (fun o => { o with x := nx, y := ny })
      else w.findOrg j := by
  unfold World.moveOrg
  rw [World.findOrg_updateOrg _ i j
    (fun q => { q with x := nx, y := ny }) (fun q => rfl)]
  rw [World.findOrg_setCell, World.findOrg_setCell]

lemma WF.moveOrg {w : World} (hw : WF w) {i : Nat} {o : Organism}
    {nx ny : Int} (ho : w.findOrg i = some o)
    (hin : w.inBounds nx ny) (hempty : w.getCell nx ny = none) :
    WF (w.moveOrg i o.x o.y nx ny) := by
  obtain ⟨homem, hooid⟩ := World.findOrg_mem ho
  have hop := hw.posCell o homem
  have hfi : ∀ q ∈ w.allOrgs, q.oid = i → q = o :=
    fun q hq hqi => oid_inj_of_nodup hw.nodup q hq o homem (by rw [hqi, hooid])
  have hne : ¬ (nx = o.x ∧ ny = o.y) := by
    intro hc
    rw [← hc.1, ← hc.2, hempty] at hop
    simp at hop
  have hoin := hw.posIn o homem
  have hall := World.moveOrg_allOrgs w i o.x o.y nx ny
  have hgmem : ∀ q ∈ (w.moveOrg i o.x o.y nx ny).allOrgs, ∃ q₀ ∈ w.allOrgs,
      q = if q₀.oid == i then { q₀ with x := nx, y := ny } else q₀ := by
    intro q hq
    rw [hall] at hq
    obtain ⟨q₀, hq₀, hqe⟩ := List.mem_map.mp hq
    exact ⟨q₀, hq₀, hqe.symm⟩
  refine ⟨?_, ?_, ?_, ?_, ?_⟩
  · rw [hall, map_oid_updateIf w.allOrgs i
      (fun q => { q with x := nx, y := ny }) (fun q => rfl)]
    exact hw.nodup
  · intro q hq
    obtain ⟨q₀, hq₀, hqe⟩ := hgmem q hq
    rw [World.moveOrg_nextId]
    have hqo : q.oid = q₀.oid := by
      rw [hqe]
      by_cases hqi : q₀.oid = i <;> simp [hqi]
    rw [hqo]
    exact hw.idLt q₀ hq₀
  · intro q hq
    obtain ⟨q₀, hq₀, hqe⟩ := hgmem q hq
    rw [World.inBounds_size_eq (World.moveOrg_size w i o.x o.y nx ny)]
    by_cases hqi : q₀.oid = i
    · have hqx : q.x = nx := by rw [hqe]; simp [hqi]
      have hqy : q.y = ny := by rw [hqe]; simp [hqi]
      rw [hqx, hqy]
      exact hin
    · have hqq : q = q₀ := by rw [hqe]; simp [hqi]
      rw [hqq]
      exact hw.posIn q₀ hq₀
  · intro q hq
    obtain ⟨q₀, hq₀, hqe⟩ := hgmem q hq
    rw [World.getCell_moveOrg _ _ _ _ _ _ _ _ hoin]
    by_cases hqi : q₀.oid = i
    · have hqx : q.x = nx := by rw [hqe]; simp [hqi]
      have hqy : q.y = ny := by rw [hqe]; simp [hqi]
      have hqoid : q.oid = i := by rw [hqe]; simp [hqi]
      rw [hqx, hqy, hqoid]
      rw [if_neg (by intro hc; exact hne ⟨hc.1, hc.2⟩),
        if_pos ⟨rfl, rfl, hin⟩]
    · have hqq : q = q₀ := by rw [hqe]; simp [hqi]
      rw [hqq]
      have hqp := hw.posCell q₀ hq₀
      have hn1 : ¬ (q₀.x = o.x ∧ q₀.y = o.y) := by
        intro hc
        apply hqi
        have hq₀o : q₀ = o := by
          have hcell := hw.posCell q₀ hq₀
          rw [hc.1, hc.2, hop] at hcell
          have h2 : o.oid = q₀.oid := by simpa using hcell
          exact oid_inj_of_nodup hw.nodup q₀ hq₀ o homem h2.symm
        rw [hq₀o, hooid]
      have hn2 : ¬ (q₀.x = nx ∧ q₀.y = ny ∧ w.inBounds nx ny) := by
        intro hc
        have hcell := hw.posCell q₀ hq₀
        rw [hc.1, hc.2.1, hempty] at hcell
        simp at hcell
      rw [if_neg hn1, if_neg hn2]
      exact hqp
  · intro a b k hk
    rw [World.getCell_moveOrg _ _ _ _ _ _ _ _ hoin] at hk
    by_cases h1 : a = o.x ∧ b = o.y
    · rw [if_pos h1] at hk
      exact absurd hk (by simp)
    · rw [if_neg h1] at hk
      by_cases h2 : a = nx ∧ b = ny ∧ w.inBounds nx ny
      · rw [if_pos h2] at hk
        have hik : i = k := by simpa using hk
        have hmm := List.mem_map_of_mem
          (fun q => if q.oid == i then { q with x := nx, y := ny } else q)
          homem
        have hred : (if o.oid == i then { o with x := nx, y := ny } else o)
            = { o with x := nx, y := ny } := by simp [hooid]
        simp only [hred] at hmm
        refine ⟨{ o with x := nx, y := ny }, ?_, ?_, ?_, ?_⟩
        · rw [hall]; exact hmm
        · simp [hooid, hik]
        · simp [h2.1]
        · simp [h2.2.1]
      · rw [if_neg h2] at hk
        obtain ⟨q, hq, hoid, hx, hy⟩ := hw.cellOrg a b k hk
        have hqi : q.oid ≠ i := by
          intro hc
          have hqo : q = o := hfi q hq hc
          apply h1
          rw [← hx, ← hy, hqo]
          exact ⟨rfl, rfl⟩
        have hmm := List.mem_map_of_mem
          (fun r => if r.oid == i then { r with x := nx, y := ny } else r) hq
        have hred : (if q.oid == i then { q with x := nx, y := ny } else q)
            = q := by simp [hqi]
        simp only [hred] at hmm
        refine ⟨q, ?_, hoid, hx, hy⟩
        rw [hall]; exact hmm

lemma WF.createNew {w : World} (hw : WF w) (x y : Int) (sp : Species)
    (hin : w.inBounds x y) (hempty : w.getCell x y = none) :
    WF { w.setCell x y (some w.nextId) with
      allOrgs := w.allOrgs ++ [⟨w.nextId, sp, x, y, 0, 0⟩],
      nextId := w.nextId + 1 } := by
  set nw : Organism := ⟨w.nextId, sp, x, y, 0, 0⟩ with hnw
  set w2 : World := { w.setCell x y (some w.nextId) with
      allOrgs := w.allOrgs ++ [nw], nextId := w.nextId + 1 } with hw2
  have hsize : w2.size = w.size := World.setCell_size w x y _
  have hcell : ∀ a b, w2.getCell a b =
      if a = x ∧ b = y ∧ w.inBounds x y then some w.nextId
      else w.getCell a b := by
    intro a b
    have : w2.getCell a b = (w.setCell x y (some w.nextId)).getCell a b := rfl
    rw [this, World.getCell_setCell]
  have hallOrgs : w2.allOrgs = w.allOrgs ++ [nw] := rfl
  have hnext : w2.nextId = w.nextId + 1 := rfl
  refine ⟨?_, ?_, ?_, ?_, ?_⟩
  · rw [hallOrgs, List.map_append]
    rw [List.nodup_append]
    refine ⟨hw.nodup, by simp, ?_⟩
    intro k hk
    simp only [List.map_cons, List.map_nil, List.mem_singleton]
    obtain ⟨q, hq, hqk⟩ := List.mem_map.mp hk
    intro hc
    have := hw.idLt q hq
    rw [hqk, hc] at this
    omega
  · intro o ho
    rw [hallOrgs] at ho
    rw [hnext]
    rcases List.mem_append.mp ho with h | h
    · have := hw.idLt o h
      omega
    · have : o = nw := by simpa using h
      rw [this]
      have : nw.oid = w.nextId := rfl
      rw [this]
      omega
  · intro o ho
    rw [hallOrgs] at ho
    rw [World.inBounds_size_eq hsize]
    rcases List.mem_append.mp ho with h | h
    · exact hw.posIn o h
    · have : o = nw := by simpa using h
      rw [this]
      exact hin
  · intro o ho
    rw [hallOrgs] at ho
    rw [hcell]
    rcases List.mem_append.mp ho with h | h
    · have hqp := hw.posCell o h
      rw [if_neg ?_]
      · exact hqp
      · intro hc
        rw [hc.1, hc.2.1, hempty] at hqp
        simp at hqp
    · have : o = nw := by simpa using h
      rw [this]
      rw [if_pos ⟨rfl, rfl, hin⟩]
  · intro a b k hk
    rw [hcell] at hk
    by_cases hab : a = x ∧ b = y ∧ w.inBounds x y
    · rw [if_pos hab] at hk
      refine ⟨nw, ?_, ?_, ?_, ?_⟩
      · rw [hallOrgs]
        exact List.mem_append_right _ (by simp)
      · have h1 : nw.oid = w.nextId := rfl
        have h2 : w.nextId = k := by simpa using hk
        rw [h1, h2]
      · have h1 : nw.x = x := rfl
        rw [h1, hab.1]
      · have h1 : nw.y = y := rfl
        rw [h1, hab.2.1]
    · rw [if_neg hab] at hk
      obtain ⟨q, hq, hoid, hx, hy⟩ := hw.cellOrg a b k hk
      refine ⟨q, ?_, hoid, hx, hy⟩
      rw [hallOrgs]
      exact List.mem_append_left _ hq

lemma WF.createAnt {w : World} (hw : WF w) (x y : Int)
    (hin : w.inBounds x y) : WF (w.createAnt x y) := by
  rcases hg : w.getCell x y with _ | i
  · rw [World.createAnt_of_empty hg]
    exact WF.createNew hw x y Species.ant hin hg
  · rw [World.createAnt_of_occupied hg]
    exact hw

lemma WF.createDoodlebug {w : World} (hw : WF w) (x y : Int)
    (hin : w.inBounds x y) : WF (w.createDoodlebug x y) := by
  rcases hg : w.getCell x y with _ | i
  · rw [World.createDoodlebug_of_empty hg]
    exact WF.createNew hw x y Species.doodlebug hin hg
  · rw [World.createDoodlebug_of_occupied hg]
    exact hw

lemma counterf_pres_breed :
    ∀ q : Organism, (({ q with breedCount := q.breedCount + 1 } : Organism).oid
        = q.oid) ∧
      ({ q with breedCount := q.breedCount + 1 } : Organism).x = q.x ∧
      ({ q with breedCount := q.breedCount + 1 } : Organism).y = q.y :=
  fun _ => ⟨rfl, rfl, rfl⟩

lemma WF.breedPhase_wf {w : World} (hw : WF w) (i : Nat)
    (ns : List (Int × Int)) (thr : Nat)
    (create : World → Int → Int → World) (t : List Nat)
    (hns : ∀ p ∈ ns, w.inBounds p.1 p.2)
    (hcr : ∀ (w' : World) (a b : Int), WF w' → w'.inBounds a b →
      WF (create w' a b)) :
    WF (breedPhase w i ns thr create t).1 := by
  have hw1 : WF (w.updateOrg i
      (fun q => { q with breedCount := q.breedCount + 1 })) :=
    WF.updateOrg hw i _ counterf_pres_breed
  have hsize1 : (w.updateOrg i
      (fun q => { q with breedCount := q.breedCount + 1 })).size = w.size :=
    World.updateOrg_size w i _
  unfold breedPhase
  simp only []
  split
  · split
    · rename_i p hfind
      have hp : p ∈ ns := mem_shuffleWith (List.mem_of_find?_eq_some hfind)
      have hpin : (w.updateOrg i (fun q =>
          { q with breedCount := q.breedCount + 1 })).inBounds p.1 p.2 := by
        rw [World.inBounds_size_eq hsize1]
        exact hns p hp
      exact WF.updateOrg (hcr _ p.1 p.2 hw1 hpin) i _ (fun q => ⟨rfl, rfl, rfl⟩)
    · exact WF.updateOrg hw1 i _ (fun q => ⟨rfl, rfl, rfl⟩)
  · exact hw1

lemma createAnt_hcr : ∀ (w' : World) (a b : Int), WF w' → w'.inBounds a b →
    WF (w'.createAnt a b) :=
  fun w' a b hw' hin' => WF.createAnt hw' a b hin'

lemma createDoodlebug_hcr : ∀ (w' : World) (a b : Int), WF w' →
    w'.inBounds a b → WF (w'.createDoodlebug a b) :=
  fun w' a b hw' hin' => WF.createDoodlebug hw' a b hin'

lemma antUpdate_wf {w : World} (hw : WF w) (i : Nat) (t : List Nat) :
    WF (antUpdate w i t).1 := by
  unfold antUpdate
  rcases ho : w.findOrg i with _ | o
  · exact hw
  · simp only []
    have hns : ∀ p ∈ w.getNeighbors o.x o.y, w.inBounds p.1 p.2 :=
      fun p hp => World.mem_getNeighbors_inBounds hp
    split
    · rename_i p hfind
      have hp : p ∈ w.getNeighbors o.x o.y :=
        mem_shuffleWith (List.mem_of_find?_eq_some hfind)
      have hpe : w.getCell p.1 p.2 = none := by
        have := List.find?_some hfind
        simpa [Option.isNone_iff_eq_none] using this
      have hw1 : WF (w.moveOrg i o.x o.y p.1 p.2) :=
        WF.moveOrg hw ho (World.mem_getNeighbors_inBounds hp) hpe
      apply WF.breedPhase_wf hw1 i _ ANT_BREED World.createAnt _ ?_ createAnt_hcr
      intro q hq
      rw [World.inBounds_size_eq (World.moveOrg_size w i o.x o.y p.1 p.2)]
      exact hns q hq
    · exact WF.breedPhase_wf hw i _ ANT_BREED World.createAnt _ hns createAnt_hcr

lemma doodleUpdate_wf {w : World} (hw : WF w) (i : Nat) (t : List Nat) :
    WF (doodleUpdate w i t).1 := by
  unfold doodleUpdate
  rcases ho : w.findOrg i with _ | o
  · exact hw
  · simp only []
    split
    · exact WF.deleteCell hw o.x o.y
    · have hns : ∀ p ∈ w.getNeighbors o.x o.y, w.inBounds p.1 p.2 :=
        fun p hp => World.mem_getNeighbors_inBounds hp
      split
      · -- predation branch
        rename_i p hfind
        have hp : p ∈ w.getNeighbors o.x o.y :=
          mem_shuffleWith (List.mem_of_find?_eq_some hfind)
        have hant : isAntAt w p = true := List.find?_some hfind
        have hj : ∃ j, w.getCell p.1 p.2 = some j := by
          unfold isAntAt at hant
          rcases hg : w.getCell p.1 p.2 with _ | j
          · rw [hg] at hant
            simp at hant
          · exact ⟨j, rfl⟩
        obtain ⟨j, hj⟩ := hj
        have hji : ¬ (w.getCell p.1 p.2 = some i) := by
          rw [hj]
          intro hc
          have hij : j = i := by simpa using hc
          obtain ⟨o', ho', hoid', hx', hy'⟩ :=
            hw.cellOrg p.1 p.2 i (by rw [hj, hij])
          obtain ⟨homem, hooid⟩ := World.findOrg_mem ho
          have hoo : o' = o := oid_inj_of_nodup hw.nodup o' ho' o homem
            (by rw [hoid', hooid])
          apply World.mem_getNeighbors_ne hp
          rw [← hx', ← hy', hoo]
          exact ⟨rfl, rfl⟩
        have hw1 : WF (w.deleteCell p.1 p.2) := WF.deleteCell hw p.1 p.2
        have ho1 : (w.deleteCell p.1 p.2).findOrg i = some o := by
          rw [World.findOrg_deleteCell w p.1 p.2 i hw.nodup, if_neg hji]
          exact ho
        have hin1 : (w.deleteCell p.1 p.2).inBounds p.1 p.2 := by
          rw [World.inBounds_size_eq (World.deleteCell_size w p.1 p.2)]
          exact World.mem_getNeighbors_inBounds hp
        have hempty1 : (w.deleteCell p.1 p.2).getCell p.1 p.2 = none := by
          rw [World.getCell_deleteCell, if_pos ⟨rfl, rfl⟩]
        have hw2 : WF ((w.deleteCell p.1 p.2).moveOrg i o.x o.y p.1 p.2) :=
          WF.moveOrg hw1 ho1 hin1 hempty1
        have hw3 : WF (((w.deleteCell p.1 p.2).moveOrg i o.x o.y
            p.1 p.2).updateOrg i (fun q => { q with starveCount := 0 })) :=
          WF.updateOrg hw2 i _ (fun q => ⟨rfl, rfl, rfl⟩)
        apply WF.breedPhase_wf hw3 i _ DOODLE_BREED World.createDoodlebug _
          ?_ createDoodlebug_hcr
        intro q hq
        rw [World.inBounds_size_eq (World.updateOrg_size _ i _),
          World.inBounds_size_eq (World.moveOrg_size _ i o.x o.y p.1 p.2),
          World.inBounds_size_eq (World.deleteCell_size w p.1 p.2)]
        exact hns q hq
      · -- no predation: movement, starve increment, breeding
        split
        · rename_i p hfind
          have hp : p ∈ w.getNeighbors o.x o.y :=
            mem_shuffleWith (List.mem_of_find?_eq_some hfind)
          have hpe : w.getCell p.1 p.2 = none := by
            have := List.find?_some hfind
            simpa [Option.isNone_iff_eq_none] using this
          have hw1 : WF (w.moveOrg i o.x o.y p.1 p.2) :=
            WF.moveOrg hw ho (World.mem_getNeighbors_inBounds hp) hpe
          have hw2 : WF ((w.moveOrg i o.x o.y p.1 p.2).updateOrg i
              (fun q => { q with starveCount := q.starveCount + 1 })) :=
            WF.updateOrg hw1 i _ (fun q => ⟨rfl, rfl, rfl⟩)
          apply WF.breedPhase_wf hw2 i _ DOODLE_BREED World.createDoodlebug _
            ?_ createDoodlebug_hcr
          intro q hq
          rw [World.inBounds_size_eq (World.updateOrg_size _ i _),
            World.inBounds_size_eq (World.moveOrg_size w i o.x o.y p.1 p.2)]
          exact hns q hq
        · have hw2 : WF (w.updateOrg i
              (fun q => { q with starveCount := q.starveCount + 1 })) :=
            WF.updateOrg hw i _ (fun q => ⟨rfl, rfl, rfl⟩)
          apply WF.breedPhase_wf hw2 i _ DOODLE_BREED World.createDoodlebug _
            ?_ createDoodlebug_hcr
          intro q hq
          rw [World.inBounds_size_eq (World.updateOrg_size _ i _)]
          exact hns q hq

lemma orgUpdate_wf {w : World} (hw : WF w) (i : Nat) (t : List Nat) :
    WF (orgUpdate w i t).1 := by
  unfold orgUpdate
  rcases ho : w.findOrg i with _ | o
  · exact hw
  · simp only []
    rcases hs : o.species with _ | _
    · exact antUpdate_wf hw i t
    · exact doodleUpdate_wf hw i t

lemma runSnapshot_wf {w : World} (hw : WF w) (snap t : List Nat) :
    WF (runSnapshot w snap t).1 := by
  induction snap generalizing w t with
  | nil => exact hw
  | cons i rest ih =>
      unfold runSnapshot
      split
      · exact ih (orgUpdate_wf hw i t) _
      · exact ih hw t

lemma WF.bumpAge {w : World} (hw : WF w) (n : Nat) :
    WF { w with age := n } :=
  ⟨hw.nodup, hw.idLt, hw.posIn, hw.posCell, hw.cellOrg⟩

lemma update_wf {w : World} (hw : WF w) (t : List Nat) :
    WF (w.update t).1 := by
  unfold World.update
  exact runSnapshot_wf (WF.bumpAge hw _) _ _

/-! ## Frame and characterization lemmas for single operations -/

lemma consTrace_world (i : Nat) (r : World × List Nat × List Nat) :
    (consTrace i r).1 = r.1 := rfl

lemma consTrace_trace (i : Nat) (r : World × List Nat × List Nat) :
    (consTrace i r).2.2 = i :: r.2.2 := rfl

lemma World.getCell_createAnt_some {w : World} {x y a b : Int} {k : Nat}
    (h : w.getCell a b = some k) :
    (w.createAnt x y).getCell a b = some k := by
  rcases hg : w.getCell x y with _ | m
  · rw [World.createAnt_of_empty hg]
    have hred : ({ w.setCell x y (some w.nextId) with
        allOrgs := w.allOrgs ++ [(⟨w.nextId, Species.ant, x, y, 0, 0⟩ : Organism)],
        nextId := w.nextId + 1 }).getCell a b
        = (w.setCell x y (some w.nextId)).getCell a b := rfl
    rw [hred, World.getCell_setCell]
    rw [if_neg ?_]
    · exact h
    · intro hc
      rw [hc.1, hc.2.1, hg] at h
      exact Option.noConfusion h
  · rw [World.createAnt_of_occupied hg]
    exact h

lemma World.getCell_createDoodlebug_some {w : World} {x y a b : Int} {k : Nat}
    (h : w.getCell a b = some k) :
    (w.createDoodlebug x y).getCell a b = some k := by
  rcases hg : w.getCell x y with _ | m
  · rw [World.createDoodlebug_of_empty hg]
    have hred : ({ w.setCell x y (some w.nextId) with
        allOrgs := w.allOrgs ++ [(⟨w.nextId, Species.doodlebug, x, y, 0, 0⟩ : Organism)],
        nextId := w.nextId + 1 }).getCell a b
        = (w.setCell x y (some w.nextId)).getCell a b := rfl
    rw [hred, World.getCell_setCell]
    rw [if_neg ?_]
    · exact h
    · intro hc
      rw [hc.1, hc.2.1, hg] at h
      exact Option.noConfusion h
  · rw [World.createDoodlebug_of_occupied hg]
    exact h

lemma World.getCell_createAnt_other {w : World} {x y a b : Int}
    (hne : ¬ (a = x ∧ b = y)) :
    (w.createAnt x y).getCell a b = w.getCell a b := by
  rcases hg : w.getCell x y with _ | m
  · rw [World.createAnt_of_empty hg]
    have hred : ({ w.setCell x y (some w.nextId) with
        allOrgs := w.allOrgs ++ [(⟨w.nextId, Species.ant, x, y, 0, 0⟩ : Organism)],
        nextId := w.nextId + 1 }).getCell a b
        = (w.setCell x y (some w.nextId)).getCell a b := rfl
    rw [hred, World.getCell_setCell]
    rw [if_neg (by tauto)]
  · rw [World.createAnt_of_occupied hg]

lemma World.getCell_createDoodlebug_other {w : World} {x y a b : Int}
    (hne : ¬ (a = x ∧ b = y)) :
    (w.createDoodlebug x y).getCell a b = w.getCell a b := by
  rcases hg : w.getCell x y with _ | m
  · rw [World.createDoodlebug_of_empty hg]
    have hred : ({ w.setCell x y (some w.nextId) with
        allOrgs := w.allOrgs ++ [(⟨w.nextId, Species.doodlebug, x, y, 0, 0⟩ : Organism)],
        nextId := w.nextId + 1 }).getCell a b
        = (w.setCell x y (some w.nextId)).getCell a b := rfl
    rw [hred, World.getCell_setCell]
    rw [if_neg (by tauto)]
  · rw [World.createDoodlebug_of_occupied hg]

lemma World.findOrg_createAnt_present {w : World} {x y : Int} {j : Nat}
    {q : Organism} (h : w.findOrg j = some q) :
    (w.createAnt x y).findOrg j = some q := by
  rcases hg : w.getCell x y with _ | m
  · rw [World.createAnt_of_empty hg]
    show (w.allOrgs ++
        [(⟨w.nextId, Species.ant, x, y, 0, 0⟩ : Organism)]).find?
      (fun o => o.oid == j) = some q
    rw [List.find?_append]
    unfold World.findOrg at h
    rw [h]
    rfl
  · rw [World.createAnt_of_occupied hg]
    exact h

lemma World.findOrg_createDoodlebug_present {w : World} {x y : Int} {j : Nat}
    {q : Organism} (h : w.findOrg j = some q) :
    (w.createDoodlebug x y).findOrg j = some q := by
  rcases hg : w.getCell x y with _ | m
  · rw [World.createDoodlebug_of_empty hg]
    show (w.allOrgs ++
        [(⟨w.nextId, Species.doodlebug, x, y, 0, 0⟩ : Organism)]).find?
      (fun o => o.oid == j) = some q
    rw [List.find?_append]
    unfold World.findOrg at h
    rw [h]
    rfl
  · rw [World.createDoodlebug_of_occupied hg]
    exact h

/-- An organism's own cell never appears among the neighbors it scans, so the
occupant of a scanned neighbor cell is never the scanning organism itself. -/
lemma eaten_cell_not_self {w : World} (hw : WF w) {i : Nat} {o : Organism}
    (ho : w.findOrg i = some o) {p : Int × Int}
    (hp : p ∈ w.getNeighbors o.x o.y) :
    ¬ (w.getCell p.1 p.2 = some i) := by
  intro hc
  obtain ⟨o', ho', hoid', hx', hy'⟩ := hw.cellOrg p.1 p.2 i hc
  obtain ⟨homem, hooid⟩ := World.findOrg_mem ho
  have hoo : o' = o := oid_inj_of_nodup hw.nodup o' ho' o homem
    (by rw [hoid', hooid])
  apply World.mem_getNeighbors_ne hp
  rw [← hx', ← hy', hoo]
  exact ⟨rfl, rfl⟩

/-! ## Dead identities stay dead -/

lemma findOrg_none_iff {w : World} {j : Nat} :
    w.findOrg j = none ↔ ∀ o ∈ w.allOrgs, ¬ o.oid = j := by
  unfold World.findOrg
  rw [List.find?_eq_none]
  constructor
  · intro h o ho
    have := h o ho
    simpa using this
  · intro h o ho
    simpa using h o ho

lemma deadAt_setCell {w : World} {j : Nat} (h : w.deadAt j) (x y : Int)
    (v : Option Nat) : (w.setCell x y v).deadAt j := by
  refine ⟨?_, ?_⟩
  · rw [findOrg_none_iff]
    intro o ho
    rw [World.setCell_allOrgs] at ho
    exact findOrg_none_iff.mp h.1 o ho
  · rw [World.setCell_nextId]
    exact h.2

lemma deadAt_updateOrg {w : World} {j : Nat} (h : w.deadAt j) (i : Nat)
    (f : Organism → Organism) (hf : ∀ q, (f q).oid = q.oid) :
    (w.updateOrg i f).deadAt j := by
  refine ⟨?_, ?_⟩
  · rw [findOrg_none_iff]
    intro o ho
    rw [World.updateOrg_allOrgs] at ho
    obtain ⟨q, hq, hqo⟩ := List.mem_map.mp ho
    have hqoid : o.oid = q.oid := by
      rw [← hqo]
      by_cases hqi : q.oid = i <;> simp [hqi, hf]
    rw [hqoid]
    exact findOrg_none_iff.mp h.1 q hq
  · rw [World.updateOrg_nextId]
    exact h.2

lemma deadAt_deleteCell {w : World} {j : Nat} (h : w.deadAt j) (x y : Int) :
    (w.deleteCell x y).deadAt j := by
  refine ⟨?_, ?_⟩
  · rw [findOrg_none_iff]
    intro o ho
    rw [World.deleteCell_allOrgs] at ho
    have ho2 : o ∈ w.allOrgs := by
      rcases hg : w.getCell x y with _ | m
      · rw [hg] at ho
        exact ho
      · rw [hg] at ho
        exact List.mem_of_mem_eraseP ho
    exact findOrg_none_iff.mp h.1 o ho2
  · rw [World.deleteCell_nextId]
    exact h.2

lemma deadAt_moveOrg {w : World} {j : Nat} (h : w.deadAt j)
    (i : Nat) (ox oy nx ny : Int) :
    (w.moveOrg i ox oy nx ny).deadAt j := by
  unfold World.moveOrg
  exact deadAt_updateOrg
    (deadAt_setCell (deadAt_setCell h nx ny (some i)) ox oy none) i _
    (fun q => rfl)

lemma deadAt_createAnt {w : World} {j : Nat} (h : w.deadAt j) (x y : Int) :
    (w.createAnt x y).deadAt j := by
  rcases hg : w.getCell x y with _ | m
  · rw [World.createAnt_of_empty hg]
    refine ⟨?_, ?_⟩
    · rw [findOrg_none_iff]
      intro o ho
      have ho2 : o ∈ w.allOrgs ++
          [(⟨w.nextId, Species.ant, x, y, 0, 0⟩ : Organism)] := ho
      rcases List.mem_append.mp ho2 with hm | hm
      · exact findOrg_none_iff.mp h.1 o hm
      · have : o = (⟨w.nextId, Species.ant, x, y, 0, 0⟩ : Organism) := by
          simpa using hm
        rw [this]
        intro hc
        have hj2 := h.2
        have : w.nextId = j := hc
        omega
    · show j < w.nextId + 1
      have := h.2
      omega
  · rw [World.createAnt_of_occupied hg]
    exact h

lemma deadAt_createDoodlebug {w : World} {j : Nat} (h : w.deadAt j)
    (x y : Int) : (w.createDoodlebug x y).deadAt j := by
  rcases hg : w.getCell x y with _ | m
  · rw [World.createDoodlebug_of_empty hg]
    refine ⟨?_, ?_⟩
    · rw [findOrg_none_iff]
      intro o ho
      have ho2 : o ∈ w.allOrgs ++
          [(⟨w.nextId, Species.doodlebug, x, y, 0, 0⟩ : Organism)] := ho
      rcases List.mem_append.mp ho2 with hm | hm
      · exact findOrg_none_iff.mp h.1 o hm
      · have : o = (⟨w.nextId, Species.doodlebug, x, y, 0, 0⟩ : Organism) := by
          simpa using hm
        rw [this]
        intro hc
        have hj2 := h.2
        have : w.nextId = j := hc
        omega
    · show j < w.nextId + 1
      have := h.2
      omega
  · rw [World.createDoodlebug_of_occupied hg]
    exact h

lemma deadAt_breedPhase {w : World} {j : Nat} (h : w.deadAt j) (i : Nat)
    (ns : List (Int × Int)) (thr : Nat)
    (create : World → Int → Int → World) (t : List Nat)
    (hcr : ∀ (w' : World) (a b : Int), w'.deadAt j →
      (create w' a b).deadAt j) :
    (breedPhase w i ns thr create t).1.deadAt j := by
  have h1 := deadAt_updateOrg h i
    (fun q => { q with breedCount := q.breedCount + 1 }) (fun q => rfl)
  unfold breedPhase
  simp only []
  split
  · split
    · rename_i p hfind
      exact deadAt_updateOrg (hcr _ p.1 p.2 h1) i _ (fun q => rfl)
    · exact deadAt_updateOrg h1 i _ (fun q => rfl)
  · exact h1

lemma deadAt_antUpdate {w : World} {j : Nat} (h : w.deadAt j) (i : Nat)
    (t : List Nat) : (antUpdate w i t).1.deadAt j := by
  unfold antUpdate
  rcases ho : w.findOrg i with _ | o
  · exact h
  · simp only []
    split
    · rename_i p hfind
      exact deadAt_breedPhase (deadAt_moveOrg h i o.x o.y p.1 p.2) i _
        ANT_BREED World.createAnt _ (fun w' a b h' => deadAt_createAnt h' a b)
    · exact deadAt_breedPhase h i _ ANT_BREED World.createAnt _
        (fun w' a b h' => deadAt_createAnt h' a b)

lemma deadAt_doodleUpdate {w : World} {j : Nat} (h : w.deadAt j) (i : Nat)
    (t : List Nat) : (doodleUpdate w i t).1.deadAt j := by
  unfold doodleUpdate
  rcases ho : w.findOrg i with _ | o
  · exact h
  · simp only []
    split
    · exact deadAt_deleteCell h o.x o.y
    · split
      · rename_i p hfind
        exact deadAt_breedPhase
          (deadAt_updateOrg
            (deadAt_moveOrg (deadAt_deleteCell h p.1 p.2) i o.x o.y p.1 p.2)
            i (fun q => { q with starveCount := 0 }) (fun q => rfl)) i _
          DOODLE_BREED World.createDoodlebug _
          (fun w' a b h' => deadAt_createDoodlebug h' a b)
      · split
        · rename_i p hfind
          exact deadAt_breedPhase
            (deadAt_updateOrg (deadAt_moveOrg h i o.x o.y p.1 p.2) i
              (fun q => { q with starveCount := q.starveCount + 1 })
              (fun q => rfl)) i _ DOODLE_BREED World.createDoodlebug _
            (fun w' a b h' => deadAt_createDoodlebug h' a b)
        · exact deadAt_breedPhase
            (deadAt_updateOrg h i
              (fun q => { q with starveCount := q.starveCount + 1 })
              (fun q => rfl)) i _ DOODLE_BREED
            World.createDoodlebug _
            (fun w' a b h' => deadAt_createDoodlebug h' a b)

lemma deadAt_orgUpdate {w : World} {j : Nat} (h : w.deadAt j) (i : Nat)
    (t : List Nat) : (orgUpdate w i t).1.deadAt j := by
  unfold orgUpdate
  rcases ho : w.findOrg i with _ | o
  · exact h
  · simp only []
    rcases hs : o.species with _ | _
    · exact deadAt_antUpdate h i t
    · exact deadAt_doodleUpdate h i t

lemma deadAt_not_in_trace {w : World} {j : Nat} (h : w.deadAt j)
    (snap t : List Nat) : j ∉ (runSnapshot w snap t).2.2 := by
  induction snap generalizing w t with
  | nil =>
      unfold runSnapshot
      simp
  | cons i rest ih =>
      unfold runSnapshot
      split
      · rename_i hsome
        rw [consTrace_trace]
        simp only [List.mem_cons]
        intro hc
        rcases hc with hc | hc
        · rw [hc] at h
          rw [h.1] at hsome
          simp at hsome
        · exact ih (deadAt_orgUpdate h i t) (orgUpdate w i t).2 hc
      · exact ih h _

/-! ## Scheduler trace lemmas -/

lemma runSnapshot_trace_sublist (w : World) (snap t : List Nat) :
    ((runSnapshot w snap t).2.2).Sublist snap := by
  induction snap generalizing w t with
  | nil =>
      unfold runSnapshot
      simp
  | cons i rest ih =>
      unfold runSnapshot
      split
      · rw [consTrace_trace]
        exact List.Sublist.cons₂ i (ih _ _)
      · exact List.Sublist.cons i (ih _ _)

/-! ## Registry-record evolution through the breeding phase -/

lemma breedPhase_findOrg {w : World} {i : Nat} {o : Organism}
    (ho : w.findOrg i = some o) (ns : List (Int × Int)) (thr : Nat)
    (create : World → Int → Int → World) (t : List Nat)
    (hcre : ∀ (w' : World) (a b : Int) (q : Organism),
      w'.findOrg i = some q → (create w' a b).findOrg i = some q) :
    (breedPhase w i ns thr create t).1.findOrg i =
      some (if thr ≤ o.breedCount + 1 then { o with breedCount := 0 }
        else { o with breedCount := o.breedCount + 1 }) := by
  have h1 : (w.updateOrg i
      (fun q => { q with breedCount := q.breedCount + 1 })).findOrg i =
      some { o with breedCount := o.breedCount + 1 } := by
    rw [World.findOrg_updateOrg w i i
      (fun q => { q with breedCount := q.breedCount + 1 }) (fun q => rfl)]
    rw [if_pos rfl, ho]
    rfl
  unfold breedPhase
  simp only []
  rw [h1]
  simp only []
  by_cases hthr : thr ≤ o.breedCount + 1
  · rw [if_pos hthr, if_pos hthr]
    split
    · rename_i p hfind
      have h2 := hcre _ p.1 p.2 _ h1
      rw [World.findOrg_updateOrg _ i i
        (fun q => { q with breedCount := 0 }) (fun q => rfl)]
      rw [if_pos rfl, h2]
      rfl
    · rw [World.findOrg_updateOrg _ i i
        (fun q => { q with breedCount := 0 }) (fun q => rfl)]
      rw [if_pos rfl, h1]
      rfl
  · rw [if_neg hthr, if_neg hthr]
    exact h1

lemma breedPhase_getCell_some {w : World} {i : Nat}
    {ns : List (Int × Int)} {thr : Nat}
    {create : World → Int → Int → World} {t : List Nat} {a b : Int} {k : Nat}
    (h : w.getCell a b = some k)
    (hcre : ∀ (w' : World) (x y : Int), (w'.getCell a b = some k) →
      (create w' x y).getCell a b = some k) :
    (breedPhase w i ns thr create t).1.getCell a b = some k := by
  have h1 : (w.updateOrg i
      (fun q => { q with breedCount := q.breedCount + 1 })).getCell a b
      = some k := by
    rw [World.getCell_updateOrg]
    exact h
  unfold breedPhase
  simp only []
  split
  · split
    · rename_i p hfind
      rw [World.getCell_updateOrg]
      exact hcre _ p.1 p.2 h1
    · rw [World.getCell_updateOrg]
      exact h1
  · exact h1

lemma breedPhase_getCell_frame {w : World} {i : Nat}
    {ns : List (Int × Int)} {thr : Nat}
    {create : World → Int → Int → World} {t : List Nat} {a b : Int}
    (hnotns : (a, b) ∉ ns)
    (hcre : ∀ (w' : World) (x y : Int), (x, y) ∈ ns →
      (create w' x y).getCell a b = w'.getCell a b) :
    (breedPhase w i ns thr create t).1.getCell a b = w.getCell a b := by
  unfold breedPhase
  simp only []
  split
  · split
    · rename_i p hfind
      rw [World.getCell_updateOrg]
      have hp : p ∈ ns := mem_shuffleWith (List.mem_of_find?_eq_some hfind)
      have hp2 : (p.1, p.2) ∈ ns := by
        rcases p with ⟨p1, p2⟩
        exact hp
      rw [hcre _ p.1 p.2 hp2]
      rw [World.getCell_updateOrg]
    · rw [World.getCell_updateOrg, World.getCell_updateOrg]
  · rw [World.getCell_updateOrg]

/-! ## Well-formedness of the concrete worlds -/

lemma wf_emptyWorld (n : Int) : WF (emptyWorld n) := by
  refine ⟨by simp [emptyWorld], by simp [emptyWorld], by simp [emptyWorld],
    by simp [emptyWorld], ?_⟩
  intro x y i h
  unfold World.getCell emptyWorld at h
  split at h <;> simp at h

lemma exampleWorld_wf : WF exampleWorld :=
  WF.createAnt (WF.createDoodlebug (wf_emptyWorld 2) 0 0 (by decide)) 0 1
    (by decide)

lemma starvingWorld_wf : WF starvingWorld :=
  WF.updateOrg (WF.createDoodlebug (wf_emptyWorld 2) 0 0 (by decide)) 0
    (fun q => { q with starveCount := 3 }) (fun q => ⟨rfl, rfl, rfl⟩)

/-! ## Claim theorems -/

/-- C2: for a well-formed (reachable) state, after one `World::update` tick
the grid/registry consistency holds: every cell holds at most one organism
(two registered organisms sharing a cell are equal), every registered
organism is stored in the grid cell matching its recorded position, and
every occupied cell's occupant is registered — grid and registry are two
views of the same state. -/
theorem update_preserves_grid_registry_consistency {w : World} (hw : WF w)
    (t : List Nat) : World.consistent (w.update t).1 :=
  (update_wf hw t).consistent

theorem update_preserves_grid_registry_consistency_witness :
    WF exampleWorld ∧
      World.consistent (exampleWorld.update [0, 1, 2, 3, 4, 5]).1 :=
  ⟨exampleWorld_wf,
    update_preserves_grid_registry_consistency exampleWorld_wf
      [0, 1, 2, 3, 4, 5]⟩

/-- C3: a doodlebug whose `starveCount` has reached the threshold when its
update begins is removed from the grid and the registry as one operation
(`deleteCell`), and nothing else happens in its update: no predation,
movement or breeding phase runs, every other cell is untouched, and the
registry loses exactly its entry. -/
theorem starving_doodlebug_removed_before_phases {w : World} (hw : WF w)
    (i : Nat) (o : Organism) (t : List Nat) (ho : w.findOrg i = some o)
    (hsp : o.species = Species.doodlebug)
    (hst : DOODLE_STARVE ≤ o.starveCount) :
    orgUpdate w i t = (w.deleteCell o.x o.y, t) ∧
    (orgUpdate w i t).1.findOrg i = none ∧
    (orgUpdate w i t).1.getCell o.x o.y = none ∧
    (∀ a b : Int, ¬ (a = o.x ∧ b = o.y) →
      (orgUpdate w i t).1.getCell a b = w.getCell a b) ∧
    (orgUpdate w i t).1.allOrgs = w.allOrgs.eraseP (fun q => q.oid == i) := by
  obtain ⟨homem, hooid⟩ := World.findOrg_mem ho
  have hcell : w.getCell o.x o.y = some i := by
    rw [← hooid]
    exact hw.posCell o homem
  have heq : orgUpdate w i t = (w.deleteCell o.x o.y, t) := by
    unfold orgUpdate
    rw [ho]
    simp only []
    rw [hsp]
    simp only []
    unfold doodleUpdate
    rw [ho]
    simp only []
    rw [if_pos hst]
  refine ⟨heq, ?_, ?_, ?_, ?_⟩
  · rw [heq]
    show (w.deleteCell o.x o.y).findOrg i = none
    rw [World.findOrg_deleteCell w o.x o.y i hw.nodup, if_pos hcell]
  · rw [heq]
    show (w.deleteCell o.x o.y).getCell o.x o.y = none
    rw [World.getCell_deleteCell, if_pos ⟨rfl, rfl⟩]
  · intro a b hab
    rw [heq]
    show (w.deleteCell o.x o.y).getCell a b = w.getCell a b
    rw [World.getCell_deleteCell, if_neg hab]
  · rw [heq]
    show (w.deleteCell o.x o.y).allOrgs = _
    rw [World.deleteCell_allOrgs, hcell]

theorem starving_doodlebug_removed_before_phases_witness :
    (orgUpdate starvingWorld 0 []).1.findOrg 0 = none ∧
      (orgUpdate starvingWorld 0 []).1.getCell 0 0 = none :=
  ⟨(starving_doodlebug_removed_before_phases starvingWorld_wf 0
      ⟨0, Species.doodlebug, 0, 0, 0, 3⟩ [] (by decide) (by decide)
      (by decide)).2.1,
    (starving_doodlebug_removed_before_phases starvingWorld_wf 0
      ⟨0, Species.doodlebug, 0, 0, 0, 3⟩ [] (by decide) (by decide)
      (by decide)).2.2.1⟩

/-- C7: the scheduler only ever invokes updates on ids taken from the
snapshot, which is drawn from the registry as it was when the tick began;
hence an organism whose id was not registered at tick start — in particular
any offspring created during the tick, whose id is freshly allocated — never
has its update invoked during that tick. -/
theorem newborns_never_act_in_birth_tick (w : World) (t : List Nat) (j : Nat)
    (hj : j ∉ w.allOrgs.map (fun o => o.oid)) :
    j ∉ w.updateTrace t := by
  intro hc
  unfold World.updateTrace World.update at hc
  have hsub := runSnapshot_trace_sublist { w with age := w.age + 1 }
    (shuffleWith (t.take (w.allOrgs.map (fun o => o.oid)).length)
      (w.allOrgs.map (fun o => o.oid)))
    (t.drop (w.allOrgs.map (fun o => o.oid)).length)
  exact hj (mem_shuffleWith (hsub.mem hc))

theorem newborns_never_act_in_birth_tick_witness :
    5 ∉ exampleWorld.allOrgs.map (fun o => o.oid) ∧
      5 ∉ exampleWorld.updateTrace [0, 0, 0, 0, 0, 0, 0, 0] :=
  ⟨by decide,
    newborns_never_act_in_birth_tick exampleWorld [0, 0, 0, 0, 0, 0, 0, 0] 5
      (by decide)⟩

/-- C8: each organism in the tick's snapshot has its update invoked at most
once (the trace counts every id at most once, because the snapshot is a
permutation of the duplicate-free registry), and from any scheduler state in
which an allocated id is no longer in the live registry (it was eaten or
starved earlier in the tick) that id is never invoked in the remainder of
the tick — the liveness check runs immediately before each invocation. -/
theorem snapshot_update_at_most_once {w : World} (hw : WF w) (t : List Nat) :
    (∀ j, (w.updateTrace t).count j ≤ 1) ∧
    (∀ (w' : World) (snap t' : List Nat) (j : Nat),
      w'.findOrg j = none → j < w'.nextId →
        j ∉ (runSnapshot w' snap t').2.2) := by
  constructor
  · intro j
    unfold World.updateTrace World.update
    have hsub := runSnapshot_trace_sublist { w with age := w.age + 1 }
      (shuffleWith (t.take (w.allOrgs.map (fun o => o.oid)).length)
        (w.allOrgs.map (fun o => o.oid)))
      (t.drop (w.allOrgs.map (fun o => o.oid)).length)
    have hcount := hsub.count_le j
    have hnds : (shuffleWith (t.take (w.allOrgs.map (fun o => o.oid)).length)
        (w.allOrgs.map (fun o => o.oid))).Nodup :=
      ((shuffleWith_perm _ _).nodup_iff).mpr hw.nodup
    have hone := List.nodup_iff_count_le_one.mp hnds j
    omega
  · intro w' snap t' j h1 h2
    exact deadAt_not_in_trace ⟨h1, h2⟩ snap t'

theorem snapshot_update_at_most_once_witness :
    ((exampleWorld.updateTrace [0, 0, 0, 0, 0, 0, 0, 0]).count 0 ≤ 1) ∧
      1 ∉ (runSnapshot (doodleUpdate exampleWorld 0 [0, 0]).1 [1] []).2.2 :=
  ⟨(snapshot_update_at_most_once exampleWorld_wf
      [0, 0, 0, 0, 0, 0, 0, 0]).1 0,
    (snapshot_update_at_most_once exampleWorld_wf []).2
      (doodleUpdate exampleWorld 0 [0, 0]).1 [1] [] 1 (by decide) (by decide)⟩

/-- C10: creating an organism on an in-bounds cell that is already occupied
leaves the whole world unchanged — `createAnt` and `createDoodlebug` never
overwrite an occupant and never register an organism they did not place. -/
theorem create_on_occupied_is_noop {w : World} {x y : Int} {i : Nat}
    (hin : w.inBounds x y) (h : w.getCell x y = some i) :
    w.createAnt x y = w ∧ w.createDoodlebug x y = w :=
  ⟨World.createAnt_of_occupied h, World.createDoodlebug_of_occupied h⟩

theorem create_on_occupied_is_noop_witness :
    exampleWorld.inBounds 0 0 ∧ exampleWorld.getCell 0 0 = some 0 ∧
      (exampleWorld.createAnt 0 0 = exampleWorld ∧
        exampleWorld.createDoodlebug 0 0 = exampleWorld) :=
  ⟨by decide, by decide,
    @create_on_occupied_is_noop exampleWorld 0 0 0 (by decide) (by decide)⟩

lemma getNeighbors_length (w : World) (x y : Int) :
    (w.getNeighbors x y).length =
      (if w.inBounds x (y + 1) then 1 else 0) +
      (if w.inBounds x (y - 1) then 1 else 0) +
      (if w.inBounds (x + 1) y then 1 else 0) +
      (if w.inBounds (x - 1) y then 1 else 0) := by
  unfold World.getNeighbors
  by_cases b1 : w.inBounds x (y + 1) <;>
    by_cases b2 : w.inBounds x (y - 1) <;>
      by_cases b3 : w.inBounds (x + 1) y <;>
        by_cases b4 : w.inBounds (x - 1) y <;>
          simp [b1, b2, b3, b4, List.filter]

/-- C9 counterexample: the 1×1 grid (the spec's own Scenario A world) has an
in-bounds boundary cell (0,0) with 0 neighbors, contradicting the claim that
edge/corner cells always yield 2–3 neighbors. -/
theorem neighbor_count_cex :
    (emptyWorld 1).inBounds 0 0 ∧
      (emptyWorld 1).getNeighbors 0 0 = [] ∧
      ¬ (2 ≤ ((emptyWorld 1).getNeighbors 0 0).length) :=
  ⟨by decide, by decide, by decide⟩

/-- C9 (amended): `getCell` is total and returns the empty sentinel out of
bounds, `setCell` out of bounds changes nothing, and `getNeighbors` yields
only in-bounds orthogonally adjacent cells (no diagonals, no wraparound);
for grids of side at least 2, interior cells have exactly 4 neighbors,
corner cells 2, and non-corner edge cells 3 (on a 1×1 grid the unique cell
has 0 neighbors). -/
theorem grid_access_total_and_neighbor_counts (w : World) (x y : Int) :
    (¬ w.inBounds x y → w.getCell x y = none) ∧
    (¬ w.inBounds x y → ∀ v, w.setCell x y v = w) ∧
    (∀ p ∈ w.getNeighbors x y, w.inBounds p.1 p.2 ∧
      p ∈ [(x, y + 1), (x, y - 1), (x + 1, y), (x - 1, y)]) ∧
    (2 ≤ w.size → w.inBounds x y →
      ((0 < x ∧ x < w.size - 1 ∧ 0 < y ∧ y < w.size - 1 →
        (w.getNeighbors x y).length = 4) ∧
      ((x = 0 ∨ x = w.size - 1) ∧ (y = 0 ∨ y = w.size - 1) →
        (w.getNeighbors x y).length = 2) ∧
      (¬ (0 < x ∧ x < w.size - 1 ∧ 0 < y ∧ y < w.size - 1) →
        ¬ ((x = 0 ∨ x = w.size - 1) ∧ (y = 0 ∨ y = w.size - 1)) →
        (w.getNeighbors x y).length = 3))) := by
  refine ⟨?_, ?_, ?_, ?_⟩
  · intro h
    exact World.getCell_of_not_inBounds w h
  · intro h v
    unfold World.setCell
    rw [if_neg h]
  · intro p hp
    exact ⟨World.mem_getNeighbors_inBounds hp, (List.mem_filter.mp hp).1⟩
  · intro hsz hin
    unfold World.inBounds at hin
    refine ⟨?_, ?_, ?_⟩
    · intro h
      rw [getNeighbors_length]
      have c1 : w.inBounds x (y + 1) := by unfold World.inBounds; omega
      have c2 : w.inBounds x (y - 1) := by unfold World.inBounds; omega
      have c3 : w.inBounds (x + 1) y := by unfold World.inBounds; omega
      have c4 : w.inBounds (x - 1) y := by unfold World.inBounds; omega
      rw [if_pos c1, if_pos c2, if_pos c3, if_pos c4]
    · intro h
      rw [getNeighbors_length]
      by_cases c1 : w.inBounds x (y + 1) <;>
        by_cases c2 : w.inBounds x (y - 1) <;>
          by_cases c3 : w.inBounds (x + 1) y <;>
            by_cases c4 : w.inBounds (x - 1) y <;>
              simp only [c1, c2, c3, c4, if_true, if_false] <;>
                (unfold World.inBounds at c1 c2 c3 c4; omega)
    · intro h1 h2
      rw [getNeighbors_length]
      by_cases c1 : w.inBounds x (y + 1) <;>
        by_cases c2 : w.inBounds x (y - 1) <;>
          by_cases c3 : w.inBounds (x + 1) y <;>
            by_cases c4 : w.inBounds (x - 1) y <;>
              simp only [c1, c2, c3, c4, if_true, if_false] <;>
                (unfold World.inBounds at c1 c2 c3 c4; omega)

theorem grid_access_total_and_neighbor_counts_witness :
    (emptyWorld 3).getCell 5 5 = none ∧
      (emptyWorld 3).setCell 5 5 (some 0) = emptyWorld 3 ∧
      ((emptyWorld 3).getNeighbors 1 1).length = 4 ∧
      ((emptyWorld 3).getNeighbors 0 0).length = 2 ∧
      ((emptyWorld 3).getNeighbors 0 1).length = 3 :=
  ⟨(grid_access_total_and_neighbor_counts (emptyWorld 3) 5 5).1 (by decide),
    (grid_access_total_and_neighbor_counts (emptyWorld 3) 5 5).2.1
      (by decide) (some 0),
    ((grid_access_total_and_neighbor_counts (emptyWorld 3) 1 1).2.2.2
      (by decide) (by decide)).1 (by decide),
    ((grid_access_total_and_neighbor_counts (emptyWorld 3) 0 0).2.2.2
      (by decide) (by decide)).2.1 (by decide),
    ((grid_access_total_and_neighbor_counts (emptyWorld 3) 0 1).2.2.2
      (by decide) (by decide)).2.2 (by decide) (by decide)⟩

/-! ## Dispatch and per-update record evolution -/

lemma orgUpdate_eq_ant {w : World} {i : Nat} {o : Organism} (t : List Nat)
    (ho : w.findOrg i = some o) (hsp : o.species = Species.ant) :
    orgUpdate w i t = antUpdate w i t := by
  unfold orgUpdate
  rw [ho]
  simp only []
  rw [hsp]

lemma orgUpdate_eq_doodle {w : World} {i : Nat} {o : Organism} (t : List Nat)
    (ho : w.findOrg i = some o) (hsp : o.species = Species.doodlebug) :
    orgUpdate w i t = doodleUpdate w i t := by
  unfold orgUpdate
  rw [ho]
  simp only []
  rw [hsp]

lemma antUpdate_findOrg {w : World} {i : Nat} {o : Organism} (t : List Nat)
    (ho : w.findOrg i = some o) :
    ((antUpdate w i t).1.findOrg i).map
        (fun q => (q.starveCount, q.breedCount)) =
      some (o.starveCount,
        if ANT_BREED ≤ o.breedCount + 1 then 0 else o.breedCount + 1) := by
  unfold antUpdate
  rw [ho]
  simp only []
  split
  · rename_i p hfind
    have h2 : (w.moveOrg i o.x o.y p.1 p.2).findOrg i =
        some { o with x := p.1, y := p.2 } := by
      rw [World.findOrg_moveOrg, if_pos rfl, ho]
      rfl
    rw [breedPhase_findOrg h2 _ ANT_BREED _ _
      (fun w' a b q h => World.findOrg_createAnt_present h)]
    simp only []
    by_cases hC : ANT_BREED ≤ o.breedCount + 1 <;> simp [hC]
  · rw [breedPhase_findOrg ho _ ANT_BREED _ _
      (fun w' a b q h => World.findOrg_createAnt_present h)]
    by_cases hC : ANT_BREED ≤ o.breedCount + 1 <;> simp [hC]

lemma doodleUpdate_predation_findOrg {w : World} (hw : WF w)
    {i : Nat} {o : Organism} {t : List Nat} (ho : w.findOrg i = some o)
    (hsurv : o.starveCount < DOODLE_STARVE)
    {p : Int × Int}
    (hfind : (shuffleWith (t.take (w.getNeighbors o.x o.y).length)
        (w.getNeighbors o.x o.y)).find? (fun q => isAntAt w q) = some p) :
    (doodleUpdate w i t).1.findOrg i =
      some (if DOODLE_BREED ≤ o.breedCount + 1
        then { o with x := p.1, y := p.2, starveCount := 0, breedCount := 0 }
        else { o with
          x := p.1, y := p.2, starveCount := 0,
          breedCount := o.breedCount + 1 }) := by
  have hstarve : ¬ (DOODLE_STARVE ≤ o.starveCount) := by omega
  have hp : p ∈ w.getNeighbors o.x o.y :=
    mem_shuffleWith (List.mem_of_find?_eq_some hfind)
  have hji : ¬ (w.getCell p.1 p.2 = some i) := eaten_cell_not_self hw ho hp
  have h1 : (w.deleteCell p.1 p.2).findOrg i = some o := by
    rw [World.findOrg_deleteCell w p.1 p.2 i hw.nodup, if_neg hji]
    exact ho
  have h2 : ((w.deleteCell p.1 p.2).moveOrg i o.x o.y p.1 p.2).findOrg i =
      some { o with x := p.1, y := p.2 } := by
    rw [World.findOrg_moveOrg, if_pos rfl, h1]
    rfl
  have h3 : (((w.deleteCell p.1 p.2).moveOrg i o.x o.y p.1 p.2).updateOrg i
      (fun q => { q with starveCount := 0 })).findOrg i =
      some { o with x := p.1, y := p.2, starveCount := 0 } := by
    rw [World.findOrg_updateOrg _ i i (fun q => { q with starveCount := 0 })
      (fun q => rfl), if_pos rfl, h2]
    rfl
  unfold doodleUpdate
  rw [ho]
  simp only []
  rw [if_neg hstarve, hfind]
  simp only []
  rw [breedPhase_findOrg h3 _ DOODLE_BREED _ _
    (fun w' a b q h => World.findOrg_createDoodlebug_present h)]

lemma doodleUpdate_nopred_findOrg {w : World}
    {i : Nat} {o : Organism} {t : List Nat} (ho : w.findOrg i = some o)
    (hsurv : o.starveCount < DOODLE_STARVE)
    (hfind : (shuffleWith (t.take (w.getNeighbors o.x o.y).length)
        (w.getNeighbors o.x o.y)).find? (fun q => isAntAt w q) = none) :
    ((doodleUpdate w i t).1.findOrg i).map
        (fun q => (q.starveCount, q.breedCount)) =
      some (o.starveCount + 1,
        if DOODLE_BREED ≤ o.breedCount + 1 then 0 else o.breedCount + 1) := by
  have hstarve : ¬ (DOODLE_STARVE ≤ o.starveCount) := by omega
  unfold doodleUpdate
  rw [ho]
  simp only []
  rw [if_neg hstarve, hfind]
  simp only []
  split
  · rename_i p hfind2
    have h2 : (w.moveOrg i o.x o.y p.1 p.2).findOrg i =
        some { o with x := p.1, y := p.2 } := by
      rw [World.findOrg_moveOrg, if_pos rfl, ho]
      rfl
    have h3 : ((w.moveOrg i o.x o.y p.1 p.2).updateOrg i
        (fun q => { q with starveCount := q.starveCount + 1 })).findOrg i =
        some { o with
          x := p.1, y := p.2,
          starveCount := o.starveCount + 1 } := by
      rw [World.findOrg_updateOrg _ i i
        (fun q => { q with starveCount := q.starveCount + 1 })
        (fun q => rfl), if_pos rfl, h2]
      rfl
    rw [breedPhase_findOrg h3 _ DOODLE_BREED _ _
      (fun w' a b q h => World.findOrg_createDoodlebug_present h)]
    simp only []
    by_cases hC : DOODLE_BREED ≤ o.breedCount + 1 <;> simp [hC]
  · have h3 : (w.updateOrg i
        (fun q => { q with starveCount := q.starveCount + 1 })).findOrg i =
        some { o with starveCount := o.starveCount + 1 } := by
      rw [World.findOrg_updateOrg _ i i
        (fun q => { q with starveCount := q.starveCount + 1 })
        (fun q => rfl), if_pos rfl, ho]
      rfl
    rw [breedPhase_findOrg h3 _ DOODLE_BREED _ _
      (fun w' a b q h => World.findOrg_createDoodlebug_present h)]
    simp only []
    by_cases hC : DOODLE_BREED ≤ o.breedCount + 1 <;> simp [hC]

/-- C4: when a doodlebug's shuffled neighbor scan finds an ant (first hit at
cell `p`, occupant id `j`), within that single update the ant is removed from
both grid and registry (so no later update this tick can see or eat it), the
doodlebug comes to occupy `p` with `starveCount = 0`, and its former cell
becomes empty. -/
theorem predation_eats_first_adjacent_ant {w : World} (hw : WF w)
    (i : Nat) (o : Organism) (t : List Nat) (ho : w.findOrg i = some o)
    (hlt : o.starveCount < DOODLE_STARVE) (p : Int × Int)
    (hfind : (shuffleWith (t.take (w.getNeighbors o.x o.y).length)
        (w.getNeighbors o.x o.y)).find? (fun q => isAntAt w q) = some p)
    (j : Nat) (hj : w.getCell p.1 p.2 = some j) :
    (doodleUpdate w i t).1.findOrg j = none ∧
    (doodleUpdate w i t).1.getCell p.1 p.2 = some i ∧
    (doodleUpdate w i t).1.getCell o.x o.y = none ∧
    ((doodleUpdate w i t).1.findOrg i).map (fun q => q.starveCount) =
      some 0 ∧
    ((doodleUpdate w i t).1.findOrg i).map (fun q => (q.x, q.y)) = some p := by
  have hstarve : ¬ (DOODLE_STARVE ≤ o.starveCount) := by omega
  have hp : p ∈ w.getNeighbors o.x o.y :=
    mem_shuffleWith (List.mem_of_find?_eq_some hfind)
  have hpin : w.inBounds p.1 p.2 := World.mem_getNeighbors_inBounds hp
  have hji : ¬ (w.getCell p.1 p.2 = some i) := eaten_cell_not_self hw ho hp
  have hjne : j ≠ i := fun hc => hji (by rw [hj, hc])
  obtain ⟨homem, hooid⟩ := World.findOrg_mem ho
  have hoin : w.inBounds o.x o.y := hw.posIn o homem
  have hw1in : (w.deleteCell p.1 p.2).inBounds o.x o.y := by
    rw [World.inBounds_size_eq (World.deleteCell_size w p.1 p.2)]
    exact hoin
  have hin1 : (w.deleteCell p.1 p.2).inBounds p.1 p.2 := by
    rw [World.inBounds_size_eq (World.deleteCell_size w p.1 p.2)]
    exact hpin
  have heq : doodleUpdate w i t =
      breedPhase (((w.deleteCell p.1 p.2).moveOrg i o.x o.y p.1 p.2).updateOrg
          i (fun q => { q with starveCount := 0 }))
        i (w.getNeighbors o.x o.y) DOODLE_BREED World.createDoodlebug
        (t.drop (w.getNeighbors o.x o.y).length) := by
    unfold doodleUpdate
    rw [ho]
    simp only []
    rw [if_neg hstarve, hfind]
  have hrec := doodleUpdate_predation_findOrg hw ho hlt hfind
  refine ⟨?_, ?_, ?_, ?_, ?_⟩
  · rw [heq]
    have hdead : (((w.deleteCell p.1 p.2).moveOrg i o.x o.y
        p.1 p.2).updateOrg i
        (fun q => { q with starveCount := 0 })).deadAt j := by
      refine ⟨?_, ?_⟩
      · rw [World.findOrg_updateOrg _ i j
          (fun q => { q with starveCount := 0 }) (fun q => rfl),
          if_neg hjne, World.findOrg_moveOrg, if_neg hjne,
          World.findOrg_deleteCell w p.1 p.2 j hw.nodup, if_pos hj]
      · rw [World.updateOrg_nextId, World.moveOrg_nextId,
          World.deleteCell_nextId]
        obtain ⟨oj, hoj, hojoid, _, _⟩ := hw.cellOrg p.1 p.2 j hj
        rw [← hojoid]
        exact hw.idLt oj hoj
    exact (deadAt_breedPhase hdead i _ DOODLE_BREED _ _
      (fun w' a b h' => deadAt_createDoodlebug h' a b)).1
  · rw [heq]
    have hcell3 : (((w.deleteCell p.1 p.2).moveOrg i o.x o.y
        p.1 p.2).updateOrg i
        (fun q => { q with starveCount := 0 })).getCell p.1 p.2 = some i := by
      rw [World.getCell_updateOrg,
        World.getCell_moveOrg _ _ _ _ _ _ _ _ hw1in,
        if_neg (World.mem_getNeighbors_ne hp), if_pos ⟨rfl, rfl, hin1⟩]
    exact breedPhase_getCell_some hcell3
      (fun w' a b h' => World.getCell_createDoodlebug_some h')
  · rw [heq]
    have hcell3 : (((w.deleteCell p.1 p.2).moveOrg i o.x o.y
        p.1 p.2).updateOrg i
        (fun q => { q with starveCount := 0 })).getCell o.x o.y = none := by
      rw [World.getCell_updateOrg,
        World.getCell_moveOrg _ _ _ _ _ _ _ _ hw1in, if_pos ⟨rfl, rfl⟩]
    have hnotns : ((o.x, o.y) : Int × Int) ∉ w.getNeighbors o.x o.y :=
      fun hc => World.mem_getNeighbors_ne hc ⟨rfl, rfl⟩
    rw [breedPhase_getCell_frame hnotns
      (fun w' a b hab => World.getCell_createDoodlebug_other
        (fun hcc => World.mem_getNeighbors_ne hab ⟨hcc.1.symm, hcc.2.symm⟩))]
    exact hcell3
  · rw [hrec]
    by_cases hC : DOODLE_BREED ≤ o.breedCount + 1 <;> simp [hC]
  · rw [hrec]
    by_cases hC : DOODLE_BREED ≤ o.breedCount + 1 <;> simp [hC]

theorem predation_eats_first_adjacent_ant_witness :
    (doodleUpdate exampleWorld 0 [0, 0]).1.findOrg 1 = none ∧
      (doodleUpdate exampleWorld 0 [0, 0]).1.getCell 0 1 = some 0 ∧
      (doodleUpdate exampleWorld 0 [0, 0]).1.getCell 0 0 = none :=
  ⟨(predation_eats_first_adjacent_ant exampleWorld_wf 0
      ⟨0, Species.doodlebug, 0, 0, 0, 0⟩ [0, 0] (by decide) (by decide)
      (0, 1) (by decide) 1 (by decide)).1,
    (predation_eats_first_adjacent_ant exampleWorld_wf 0
      ⟨0, Species.doodlebug, 0, 0, 0, 0⟩ [0, 0] (by decide) (by decide)
      (0, 1) (by decide) 1 (by decide)).2.1,
    (predation_eats_first_adjacent_ant exampleWorld_wf 0
      ⟨0, Species.doodlebug, 0, 0, 0, 0⟩ [0, 0] (by decide) (by decide)
      (0, 1) (by decide) 1 (by decide)).2.2.1⟩

/-- C5: a doodlebug that survives its own update (it was not starving at the
start) ends the update with `starveCount = 0` if its predation scan found an
ant, and with `starveCount = previous + 1` otherwise — regardless of whether
its movement phase succeeded; nothing else ever changes `starveCount`. -/
theorem doodlebug_starve_counter_evolution {w : World} (hw : WF w)
    (i : Nat) (o : Organism) (t : List Nat) (ho : w.findOrg i = some o)
    (hsp : o.species = Species.doodlebug)
    (hsurv : o.starveCount < DOODLE_STARVE) :
    ((shuffleWith (t.take (w.getNeighbors o.x o.y).length)
        (w.getNeighbors o.x o.y)).find? (fun q => isAntAt w q) ≠ none →
      ((orgUpdate w i t).1.findOrg i).map (fun q => q.starveCount) =
        some 0) ∧
    ((shuffleWith (t.take (w.getNeighbors o.x o.y).length)
        (w.getNeighbors o.x o.y)).find? (fun q => isAntAt w q) = none →
      ((orgUpdate w i t).1.findOrg i).map (fun q => q.starveCount) =
        some (o.starveCount + 1)) := by
  rw [orgUpdate_eq_doodle t ho hsp]
  constructor
  · intro hne
    rcases hfind : (shuffleWith (t.take (w.getNeighbors o.x o.y).length)
        (w.getNeighbors o.x o.y)).find? (fun q => isAntAt w q) with _ | p
    · exact absurd hfind hne
    · rw [doodleUpdate_predation_findOrg hw ho hsurv hfind]
      by_cases hC : DOODLE_BREED ≤ o.breedCount + 1 <;> simp [hC]
  · intro hfind
    have h := doodleUpdate_nopred_findOrg ho hsurv hfind
    rcases hX : (doodleUpdate w i t).1.findOrg i with _ | q
    · rw [hX] at h
      simp at h
    · rw [hX] at h
      simp at h ⊢
      exact h.1

theorem doodlebug_starve_counter_evolution_witness :
    ((orgUpdate exampleWorld 0 [0, 0]).1.findOrg 0).map
        (fun q => q.starveCount) = some 0 :=
  (doodlebug_starve_counter_evolution exampleWorld_wf 0
      ⟨0, Species.doodlebug, 0, 0, 0, 0⟩ [0, 0] (by decide) (by decide)
      (by decide)).1 (by decide)

/-- C6: every organism that survives its own update has its `breedCount`
become `previous + 1`, except that on reaching the species' breeding
threshold (3 for ants, 8 for doodlebugs) it is reset to 0 — whether or not
an empty neighbor existed to place the offspring. -/
theorem breed_counter_evolution {w : World} (hw : WF w)
    (i : Nat) (o : Organism) (t : List Nat) (ho : w.findOrg i = some o)
    (hsurv : o.species = Species.doodlebug → o.starveCount < DOODLE_STARVE) :
    ((orgUpdate w i t).1.findOrg i).map (fun q => q.breedCount) =
      some (if (match o.species with
          | Species.ant => ANT_BREED
          | Species.doodlebug => DOODLE_BREED) ≤ o.breedCount + 1
        then 0 else o.breedCount + 1) := by
  rcases hs : o.species with _ | _
  · rw [orgUpdate_eq_ant t ho hs]
    have h := antUpdate_findOrg t ho
    rcases hX : (antUpdate w i t).1.findOrg i with _ | q
    · rw [hX] at h
      simp at h
    · rw [hX] at h
      simp at h ⊢
      exact h.2
  · rw [orgUpdate_eq_doodle t ho hs]
    rcases hfind : (shuffleWith (t.take (w.getNeighbors o.x o.y).length)
        (w.getNeighbors o.x o.y)).find? (fun q => isAntAt w q) with _ | p
    · have h := doodleUpdate_nopred_findOrg ho (hsurv hs) hfind
      rcases hX : (doodleUpdate w i t).1.findOrg i with _ | q
      · rw [hX] at h
        simp at h
      · rw [hX] at h
        simp at h ⊢
        exact h.2
    · rw [doodleUpdate_predation_findOrg hw ho (hsurv hs) hfind]
      by_cases hC : DOODLE_BREED ≤ o.breedCount + 1 <;> simp [hC]

theorem breed_counter_evolution_witness :
    ((orgUpdate exampleWorld 1 [0, 0, 0, 0]).1.findOrg 1).map
        (fun q => q.breedCount) = some 1 :=
  breed_counter_evolution exampleWorld_wf 1 ⟨1, Species.ant, 0, 1, 0, 0⟩
    [0, 0, 0, 0] (by decide) (fun hc => absurd hc (by decide))

/-- C1 counterexample: in `cexWorld` the ant (breedCount 2) moves from (0,0)
to (0,1) and then breeds; the offspring is placed at (1,0), which is adjacent
to the pre-move position (0,0) but *not* to the ant's new position (0,1) —
the breeding phase re-shuffles the neighbor list computed before the move,
refuting the claim that it scans the neighbors of the new position. -/
theorem breeding_scans_premove_neighbors_cex :
    ((antUpdate cexWorld 0 [0, 0, 0, 0]).1.findOrg 0).map
        (fun q => (q.x, q.y)) = some (0, 1) ∧
    (antUpdate cexWorld 0 [0, 0, 0, 0]).1.allOrgs =
      [⟨0, Species.ant, 0, 1, 0, 0⟩, ⟨1, Species.ant, 1, 0, 0, 0⟩] ∧
    (((1 : Int), (0 : Int)) : Int × Int) ∈ cexWorld.getNeighbors 0 0 ∧
    (((1 : Int), (0 : Int)) : Int × Int) ∉ cexWorld.getNeighbors 0 1 ∧
    (((1 : Int), (0 : Int)) : Int × Int) ∉
      (antUpdate cexWorld 0 [0, 0, 0, 0]).1.getNeighbors 0 1 :=
  ⟨by decide, by decide, by decide, by decide, by decide⟩

lemma orgUpdate_cell_frame {w : World} (hw : WF w)
    {i : Nat} {o : Organism} (t : List Nat) (ho : w.findOrg i = some o)
    {a b : Int} (h1 : ¬ (a = o.x ∧ b = o.y))
    (h2 : ((a, b) : Int × Int) ∉ w.getNeighbors o.x o.y) :
    (orgUpdate w i t).1.getCell a b = w.getCell a b := by
  obtain ⟨homem, hooid⟩ := World.findOrg_mem ho
  have hoin : w.inBounds o.x o.y := hw.posIn o homem
  have hpab : ∀ p : Int × Int, p ∈ w.getNeighbors o.x o.y →
      ¬ (a = p.1 ∧ b = p.2) := by
    intro p hp hc
    apply h2
    have hab : ((a, b) : Int × Int) = p := by
      rcases p with ⟨p1, p2⟩
      rw [hc.1, hc.2]
    rw [hab]
    exact hp
  have hcreA : ∀ (w' : World) (x y : Int),
      ((x, y) : Int × Int) ∈ w.getNeighbors o.x o.y →
      (w'.createAnt x y).getCell a b = w'.getCell a b :=
    fun w' x y hxy => World.getCell_createAnt_other (hpab (x, y) hxy)
  have hcreD : ∀ (w' : World) (x y : Int),
      ((x, y) : Int × Int) ∈ w.getNeighbors o.x o.y →
      (w'.createDoodlebug x y).getCell a b = w'.getCell a b :=
    fun w' x y hxy => World.getCell_createDoodlebug_other (hpab (x, y) hxy)
  unfold orgUpdate
  rw [ho]
  simp only []
  rcases hs : o.species with _ | _
  · unfold antUpdate
    rw [ho]
    simp only []
    split
    · rename_i p hfind
      have hp : p ∈ w.getNeighbors o.x o.y :=
        mem_shuffleWith (List.mem_of_find?_eq_some hfind)
      rw [breedPhase_getCell_frame h2 hcreA,
        World.getCell_moveOrg _ _ _ _ _ _ _ _ hoin, if_neg h1,
        if_neg (fun hc => hpab p hp ⟨hc.1, hc.2.1⟩)]
    · rw [breedPhase_getCell_frame h2 hcreA]
  · unfold doodleUpdate
    rw [ho]
    simp only []
    split
    · rw [World.getCell_deleteCell, if_neg h1]
    · split
      · rename_i p hfind
        have hp : p ∈ w.getNeighbors o.x o.y :=
          mem_shuffleWith (List.mem_of_find?_eq_some hfind)
        have hw1in : (w.deleteCell p.1 p.2).inBounds o.x o.y := by
          rw [World.inBounds_size_eq (World.deleteCell_size w p.1 p.2)]
          exact hoin
        rw [breedPhase_getCell_frame h2 hcreD, World.getCell_updateOrg,
          World.getCell_moveOrg _ _ _ _ _ _ _ _ hw1in, if_neg h1]
        have hin1iff := World.inBounds_size_eq
          (World.deleteCell_size w p.1 p.2) p.1 p.2
        rw [if_neg (fun hc => hpab p hp ⟨hc.1, hc.2.1⟩),
          World.getCell_deleteCell, if_neg (hpab p hp)]
      · split
        · rename_i p hfind
          have hp : p ∈ w.getNeighbors o.x o.y :=
            mem_shuffleWith (List.mem_of_find?_eq_some hfind)
          rw [breedPhase_getCell_frame h2 hcreD, World.getCell_updateOrg,
            World.getCell_moveOrg _ _ _ _ _ _ _ _ hoin, if_neg h1,
            if_neg (fun hc => hpab p hp ⟨hc.1, hc.2.1⟩)]
        · rw [breedPhase_getCell_frame h2 hcreD, World.getCell_updateOrg]

/-- C1 (amended): each phase of an organism's update independently
re-shuffles a neighbor list, but that list is computed once per update from
the organism's position at the *start* of its update: every cell an update
modifies is the organism's start cell or one of the start-position's
neighbors.  In particular, after a move (or an eat-and-move) the breeding
phase scans the pre-move neighbor set, not the neighbors of the new
position. -/
theorem update_targets_start_neighbors {w : World} (hw : WF w)
    (i : Nat) (o : Organism) (t : List Nat) (ho : w.findOrg i = some o)
    (a b : Int)
    (hch : (orgUpdate w i t).1.getCell a b ≠ w.getCell a b) :
    (a = o.x ∧ b = o.y) ∨
      ((a, b) : Int × Int) ∈ w.getNeighbors o.x o.y := by
  by_cases h1 : a = o.x ∧ b = o.y
  · exact Or.inl h1
  · by_cases h2 : ((a, b) : Int × Int) ∈ w.getNeighbors o.x o.y
    · exact Or.inr h2
    · exact absurd (orgUpdate_cell_frame hw t ho h1 h2) hch

theorem update_targets_start_neighbors_witness :
    ((0 : Int) = 0 ∧ (1 : Int) = 0) ∨
      (((0 : Int), (1 : Int)) : Int × Int) ∈ exampleWorld.getNeighbors 0 0 :=
  update_targets_start_neighbors exampleWorld_wf 0
    ⟨0, Species.doodlebug, 0, 0, 0, 0⟩ [0, 0] (by decide) 0 1 (by decide)
